import Mathlib

/-!
Verification of the paltas `ConfigHandler` pipeline
(`paltas/Configs/config_handler.py`).

The Python source is shallowly embedded: Python dicts become association
lists, floats become either rationals or a small inductive float type with
an explicit NaN, exceptions become `Except` values, and the external
lenstronomy / numpy collaborators are passed in as explicit function or
value parameters ("oracles").  Module-level mutable warning flags become an
explicit `Globals` record threaded through the functions that read them.
-/

set_option autoImplicit false

namespace Paltas

/-- Model of a Python float value as it appears in the metadata record:
either an exact rational number, the (symbolic) result of `np.sqrt` applied
to a rational, or the missing-value sentinel `np.nan`. -/
inductive PFloat where
  | num : Rat → PFloat
  | sqrtOf : Rat → PFloat
  | nan : PFloat
  deriving DecidableEq, Repr

/-- Model of a Python value stored in a sample sub-dictionary or in the
metadata record.  `vBool`, `vStr`, `vInt`, `vFloat` and `vNone` are the
scalar kinds that `get_metadata` serializes; `vTuple` models tuples (such
as the seed tuple) and `vOther` models any other non-serializable object
(lists, arrays, class instances), tagged with a number so distinct
occurrences can be told apart. -/
inductive Value where
  | vBool : Bool → Value
  | vStr : String → Value
  | vInt : Int → Value
  | vFloat : PFloat → Value
  | vNone : Value
  | vTuple : List Nat → Value
  | vOther : Nat → Value
  deriving DecidableEq, Repr

/-- A metadata record: a Python dict from string keys to values, modelled
as an association list in insertion order. -/
abbrev Md := List (String × Value)

/-- A parameter sample: a Python dict from component names to
sub-dictionaries of parameter name / value pairs, in insertion order. -/
abbrev Sample := List (String × List (String × Value))

/-- Python dict assignment `md[k] = v`: overwrite the binding in place if
the key is present (keeping its position), otherwise append at the end. -/
def mdSet : Md → String → Value → Md
  | [], k, v => [(k, v)]
  | p :: rest, k, v => if p.1 = k then (k, v) :: rest else p :: mdSet rest k v

/-- Python dict lookup: value of the first binding with the key. -/
def mdLookup : Md → String → Option Value
  | [], _ => none
  | p :: rest, k => if p.1 = k then some p.2 else mdLookup rest k

/-- The keys of a metadata record, in order. -/
def mdKeys (md : Md) : List String := md.map Prod.fst

/-- `EXCLUDE_FROM_METADATA` from the source (lines 34-42): (component,
parameter) pairs unconditionally excluded from the image metadata. -/
def EXCLUDE_FROM_METADATA : List (String × String) :=
  [("source_parameters", "source_inclusion_list"),
   ("drizzle_parameters", "offset_pattern"),
   ("source_parameters", "cosmos_folder")]

/-- The module-level warning flags of config_handler.py together with the
list of warning messages emitted so far in the process.  Source lines
28-30 initialize `SERIALIZATIONWARNING = True`,
`KWARGSNUMERICWARNING1 = False`, `KWARGSNUMERICWARNING2 = False`. -/
structure Globals where
  serializationWarning : Bool
  kwargsNumericWarning1 : Bool
  kwargsNumericWarning2 : Bool
  emitted : List String
  deriving DecidableEq, Repr

/-- The state of the warning globals at module initialization
(source lines 28-30). -/
def initGlobals : Globals :=
  { serializationWarning := true
    kwargsNumericWarning1 := false
    kwargsNumericWarning2 := false
    emitted := [] }

/-- The serialization warning message of `get_metadata`
(source lines 358-362). -/
def serializationWarnMsg (component key : String) : String :=
  "Parameter (" ++ component ++ ", " ++ key ++ ") in config_dict, " ++
    "and possibly others, will not be written to metadata.csv"

/-- The inner loop of `get_metadata` over one component's parameters
(source lines 346-363): skip excluded (component, key) pairs, coerce
booleans to 0/1 integers, pass str/int/float/None values through, and drop
any other value, warning only while the process-wide flag is still set.
The `Bool` is `SERIALIZATIONWARNING`, the `List String` the warnings
emitted so far. -/
def flattenParams (component : String) :
    List (String × Value) → Md → Bool → List String → Md × Bool × List String
  | [], md, ser, log => (md, ser, log)
  | (key, v) :: rest, md, ser, log =>
    if (component, key) ∈ EXCLUDE_FROM_METADATA then
      flattenParams component rest md ser log
    else
      match v with
      | .vBool b =>
        flattenParams component rest
          (mdSet md (component ++ "_" ++ key) (.vInt (if b then 1 else 0))) ser log
      | .vStr s =>
        flattenParams component rest (mdSet md (component ++ "_" ++ key) (.vStr s)) ser log
      | .vInt n =>
        flattenParams component rest (mdSet md (component ++ "_" ++ key) (.vInt n)) ser log
      | .vFloat x =>
        flattenParams component rest (mdSet md (component ++ "_" ++ key) (.vFloat x)) ser log
      | .vNone =>
        flattenParams component rest (mdSet md (component ++ "_" ++ key) Value.vNone) ser log
      | .vTuple _ =>
        if ser then
          flattenParams component rest md false (log ++ [serializationWarnMsg component key])
        else flattenParams component rest md ser log
      | .vOther _ =>
        if ser then
          flattenParams component rest md false (log ++ [serializationWarnMsg component key])
        else flattenParams component rest md ser log

/-- The outer loop of `get_metadata` over the sample's components
(source line 345). -/
def flattenSample : Sample → Md → Bool → List String → Md × Bool × List String
  | [], md, ser, log => (md, ser, log)
  | (component, params) :: rest, md, ser, log =>
    let r := flattenParams component params md ser log
    flattenSample rest r.1 r.2.1 r.2.2

/-- Configuration attributes of a `ConfigHandler` instance read during
rendering and metadata assembly (source lines 94-173). -/
structure HandlerConfig where
  doubles_quads_only : Bool
  quads_only : Bool
  compute_caustic_area : Bool
  compute_mass_enclosed : Bool
  ps_magnification_cut : Option Rat
  magnification_limit : Option Rat
  mag_cut : Option Rat
  add_noise : Bool
  do_drizzle : Bool
  mask_radius : Option Rat
  point_source_present : Bool
  deriving DecidableEq, Repr

/-- Numeric results of the external lens-model computations that
`get_metadata` records when caustic-area / enclosed-mass output is
configured (source lines 365-394). -/
structure DerivedOracles where
  caustic_area : PFloat
  distance_to_caustic : PFloat
  mass_enclosed : PFloat
  deriving DecidableEq, Repr

/-- `get_metadata` (source lines 320-397): flatten the current sample into
a metadata record under the serialization-warning discipline, then append
the caustic-area and enclosed-mass fields when configured.  The lens-model
computations behind those fields are external collaborators; their numeric
results enter as `DerivedOracles`. -/
def get_metadata (cfg : HandlerConfig) (orc : DerivedOracles) (sample : Sample)
    (ser : Bool) (log : List String) : Md × Bool × List String :=
  let r := flattenSample sample [] ser log
  let md := r.1
  let md := if cfg.compute_caustic_area then
      mdSet (mdSet md "main_deflector_parameters_caustic_area" (.vFloat orc.caustic_area))
        "source_parameters_distance_to_caustic" (.vFloat orc.distance_to_caustic)
    else md
  let md := if cfg.compute_mass_enclosed then
      mdSet md "main_deflector_parameters_M_encl_15e-1arcsec" (.vFloat orc.mass_enclosed)
    else md
  (md, r.2.1, r.2.2)

/-- Is the value one of the scalar kinds `get_metadata` serializes
(bool, str, int, float, None)? -/
def Value.isScalar : Value → Bool
  | .vBool _ => true
  | .vStr _ => true
  | .vInt _ => true
  | .vFloat _ => true
  | .vNone => true
  | _ => false

/-- Modelled from the spec: flattening of one (component, key, value)
triple as §3 "Metadata Record" describes it — excluded pairs dropped,
booleans coerced to 0/1, strings/ints/floats/None passed through under the
key `component_key`, anything else dropped. -/
def flattenSpecPair (component key : String) (v : Value) : Option (String × Value) :=
  if (component, key) ∈ EXCLUDE_FROM_METADATA then none
  else match v with
    | .vBool b => some (component ++ "_" ++ key, .vInt (if b then 1 else 0))
    | .vStr s => some (component ++ "_" ++ key, .vStr s)
    | .vInt n => some (component ++ "_" ++ key, .vInt n)
    | .vFloat x => some (component ++ "_" ++ key, .vFloat x)
    | .vNone => some (component ++ "_" ++ key, Value.vNone)
    | _ => none

/-- Modelled from the spec: the whole flattened record, in sample order. -/
def flattenSpecList (sample : Sample) : Md :=
  sample.flatMap (fun cp => cp.2.filterMap (fun kv => flattenSpecPair cp.1 kv.1 kv.2))

/-- Does this component hold a non-excluded parameter whose value cannot
be serialized (one that the loop drops)? -/
def hasDroppableP (component : String) (params : List (String × Value)) : Bool :=
  params.any (fun kv =>
    decide ((component, kv.1) ∉ EXCLUDE_FROM_METADATA) && !kv.2.isScalar)

/-- Does the sample hold any non-excluded non-serializable parameter? -/
def hasDroppable (sample : Sample) : Bool :=
  sample.any (fun cp => hasDroppableP cp.1 cp.2)

/-- All flattened keys of a sample (whether or not they survive). -/
def sampleFlatKeys (sample : Sample) : List String :=
  sample.flatMap (fun cp => cp.2.map (fun kv => cp.1 ++ "_" ++ kv.1))

/-- The value the flattening loop writes for a scalar, `none` for a
dropped value: booleans become 0/1, the other scalars pass through. -/
def scalarOut : Value → Option Value
  | .vBool b => some (.vInt (if b then 1 else 0))
  | .vStr s => some (.vStr s)
  | .vInt n => some (.vInt n)
  | .vFloat x => some (.vFloat x)
  | .vNone => some Value.vNone
  | _ => none

/-- A concrete handler configuration with every optional feature off,
used to evaluate the embedding at concrete inputs. -/
def cfg0 : HandlerConfig :=
  { doubles_quads_only := false
    quads_only := false
    compute_caustic_area := false
    compute_mass_enclosed := false
    ps_magnification_cut := none
    magnification_limit := none
    mag_cut := none
    add_noise := true
    do_drizzle := false
    mask_radius := none
    point_source_present := true }

/-- Concrete externally-computed values for evaluation. -/
def orc0 : DerivedOracles :=
  { caustic_area := .num 2
    distance_to_caustic := .num 1
    mass_enclosed := .num 3 }

/-- A concrete sample holding all three excluded parameters, two of them
with scalar values. -/
def sampleC9 : Sample :=
  [("source_parameters",
     [("source_inclusion_list", Value.vOther 0),
      ("cosmos_folder", Value.vStr "/data/COSMOS"),
      ("z_source", Value.vFloat (.num (3/2)))]),
   ("drizzle_parameters",
     [("offset_pattern", Value.vOther 1)])]

/-- A concrete sample exercising each flattening rule: a boolean, a
string, an int, a float, a None, an excluded scalar and a dropped list. -/
def sampleC7 : Sample :=
  [("main_deflector_parameters",
     [("theta_E", Value.vFloat (.num (11/10))),
      ("is_centered", Value.vBool true),
      ("n_subhalos", Value.vInt 12),
      ("note", Value.vStr "smooth"),
      ("missing", Value.vNone),
      ("samples", Value.vOther 7)]),
   ("source_parameters",
     [("cosmos_folder", Value.vStr "/data/COSMOS"),
      ("z_source", Value.vFloat (.num 2))])]

deriving instance DecidableEq for Except

/-- Python exceptions the embedded code can raise:
`FailedCriteriaError` (the typed selection-criteria rejection),
`ValueError` (fatal configuration or numpy-broadcast errors),
`IndexError`, `TypeError` (operations on None), and anything else. -/
inductive PErr where
  | failedCriteria
  | valueError
  | indexError
  | typeError
  | other
  deriving DecidableEq, Repr

/-- numpy / Python list indexing `xs[i]`. -/
def npGet {α : Type} (xs : List α) (i : Nat) : Except PErr α :=
  match xs[i]? with
  | some v => Except.ok v
  | none => Except.error PErr.indexError

/-- Elementwise numpy binary operation with 1-D broadcasting: equal
lengths operate pointwise, a length-1 operand broadcasts against the
other, and any other length combination raises ValueError. -/
def npBroadcast (op : Rat → Rat → Rat) (a b : List Rat) : Except PErr (List Rat) :=
  if a.length = b.length then Except.ok (List.zipWith op a b)
  else if b.length = 1 then Except.ok (a.map (fun x => op x (b.getD 0 0)))
  else if a.length = 1 then Except.ok (b.map (fun y => op (a.getD 0 0) y))
  else Except.error PErr.valueError

/-- `np.mean` of a list of rationals. -/
def listMean (xs : List Rat) : Rat := xs.foldl (· + ·) 0 / (xs.length : Rat)

/-- The metadata key prefix used for point-source quantities
(source line 451). -/
def pfix : String := "point_source_parameters_"

/-- Everything the external lenstronomy point-source and lens models
return to `_calculate_ps_metadata`, together with the fields of the
sample's `point_source_parameters` that it reads.  `x_image` and
`y_image` are `x_image[0]` and `y_image[0]` from
`point_source_model.image_position`; `raw_magnifications` is the output
of `lens_model.magnification` at those positions; `arrival_times` the
output of `lens_model.arrival_time`; `ddt_val` the output of
`ddt(sample, cosmo)`; the `ra_source`/`dec_source`/`center_x`/`center_y`
fields come from `kwargs_ps[0]` and `kwargs_lens[0]`. -/
structure PsInputs where
  x_image : List Rat
  y_image : List Rat
  raw_magnifications : List Rat
  mag_pert : Option (List Rat)
  compute_time_delays : Bool
  kappa_ext : Option Rat
  time_delay_errors : Option (List Rat)
  arrival_times : List Rat
  ddt_val : Rat
  ra_source : Rat
  dec_source : Rat
  center_x : Rat
  center_y : Rat
  deriving DecidableEq, Repr

/-- The magnification step of `_calculate_ps_metadata` (source lines
476-483): the raw magnifications, multiplied elementwise by
`mag_pert[0:len(magnifications)]` when a perturbation is configured. -/
def psMags (inp : PsInputs) : Except PErr (List Rat) :=
  match inp.mag_pert with
  | none => Except.ok inp.raw_magnifications
  | some mp =>
    npBroadcast (· * ·) inp.raw_magnifications (mp.take inp.raw_magnifications.length)

/-- The point-source magnification cut (source lines 485-489): reject
when the mean absolute magnification falls below the configured cut. -/
def checkMagCut (cut? : Option Rat) (mags : List Rat) : Except PErr Unit :=
  match cut? with
  | some cut =>
    if listMean (mags.map (fun m => |m|)) < cut then Except.error PErr.failedCriteria
    else Except.ok ()
  | none => Except.ok ()

/-- The time-delay block (source lines 491-510): when requested, requires
`kappa_ext` (fatal ValueError otherwise), optionally adds
`time_delay_errors[0:len(td)-1]`, normalizes so the first image's delay is
zero, and records the time-delay distance `ddt` in the metadata.  Returns
the computed delays (`none` when not requested) and the updated record. -/
def computeTd (inp : PsInputs) (metadata : Md) :
    Except PErr (Option (List Rat) × Md) :=
  if inp.compute_time_delays then
    match inp.kappa_ext with
    | some _ => do
      let td := inp.arrival_times
      let td ← match inp.time_delay_errors with
        | some errs => npBroadcast (· + ·) td (errs.take (td.length - 1))
        | none => Except.ok td
      let t0 ← npGet td 0
      Except.ok (some (td.map (fun t => t - t0)),
        mdSet metadata (pfix ++ "ddt") (.vFloat (.num inp.ddt_val)))
    | none => Except.error PErr.valueError
  else Except.ok (none, metadata)

/-- One iteration (index `i`) of the slot-writing loop of
`_calculate_ps_metadata` (source lines 513-531): slots below the image
count receive the computed position / magnification (and perturbation),
the others the NaN sentinel; a time-delay slot analogously when time
delays were computed. -/
def stepSlot (inp : PsInputs) (td? : Option (List Rat)) (mags : List Rat)
    (n : Nat) (i : Nat) (md : Md) : Except PErr Md := do
  let md ← if i < n then do
      let xi ← npGet inp.x_image i
      let yi ← npGet inp.y_image i
      let mi ← npGet mags i
      let md := mdSet md (pfix ++ "x_image_" ++ toString i) (.vFloat (.num xi))
      let md := mdSet md (pfix ++ "y_image_" ++ toString i) (.vFloat (.num yi))
      let md := mdSet md (pfix ++ "magnification_" ++ toString i) (.vFloat (.num mi))
      match inp.mag_pert with
      | some mp => do
        let p ← npGet mp i
        Except.ok (mdSet md (pfix ++ "mag_pert_" ++ toString i) (.vFloat (.num p)))
      | none => Except.ok md
    else
      let md := mdSet md (pfix ++ "x_image_" ++ toString i) (.vFloat .nan)
      let md := mdSet md (pfix ++ "y_image_" ++ toString i) (.vFloat .nan)
      let md := mdSet md (pfix ++ "magnification_" ++ toString i) (.vFloat .nan)
      match inp.mag_pert with
      | some _ =>
        Except.ok (mdSet md (pfix ++ "mag_pert_" ++ toString i) (.vFloat .nan))
      | none => Except.ok md
  let md := match td? with
    | some td =>
      if i < td.length then
        mdSet md (pfix ++ "time_delay_" ++ toString i) (.vFloat (.num (td.getD i 0)))
      else mdSet md (pfix ++ "time_delay_" ++ toString i) (.vFloat .nan)
    | none => md
  Except.ok md

/-- The slot-writing loop `for i in range(0,4)` of
`_calculate_ps_metadata` (source lines 513-531). -/
def writeSlots (inp : PsInputs) (td? : Option (List Rat)) (mags : List Rat)
    (n : Nat) : List Nat → Md → Except PErr Md
  | [], md => Except.ok md
  | i :: rest, md => do
    let md ← stepSlot inp td? mags n i md
    writeSlots inp td? mags n rest md

/-- `_calculate_ps_metadata` (source lines 419-533): record the image
count and the lens / point-source offset, enforce the image-count and
magnification selection criteria (the typed `FailedCriteriaError` is
`.failedCriteria`), compute time delays when requested (fatal ValueError
when `kappa_ext` is missing), write the four fixed metadata slots, and
return 0. -/
def calculate_ps_metadata (cfg : HandlerConfig) (inp : PsInputs) (metadata : Md) :
    Except PErr (Md × Int) := do
  let num_images := inp.x_image.length
  let metadata := mdSet metadata (pfix ++ "num_images") (.vInt (num_images : Int))
  let x_diff := inp.ra_source - inp.center_x
  let y_diff := inp.dec_source - inp.center_y
  let metadata := mdSet metadata (pfix ++ "lens_ps_offset")
    (.vFloat (.sqrtOf (x_diff ^ 2 + y_diff ^ 2)))
  if num_images > 5 then Except.error PErr.failedCriteria
  else if num_images < 2 then Except.error PErr.failedCriteria
  else if cfg.doubles_quads_only = true ∧ num_images ≠ 2 ∧ num_images ≠ 4 then
    Except.error PErr.failedCriteria
  else if cfg.quads_only = true ∧ num_images ≠ 4 then Except.error PErr.failedCriteria
  else do
    let mags ← psMags inp
    let _ ← checkMagCut cfg.ps_magnification_cut mags
    let tdmd ← computeTd inp metadata
    let md ← writeSlots inp tdmd.1 mags num_images (List.range 4) tdmd.2
    Except.ok (md, 0)

/-- Does the string `pre` begin the string `k`? -/
def strHasPre (pre k : String) : Bool := pre.data.isPrefixOf k.data

/-- The keys of the record that begin with `pre`, in order. -/
def preKeys (md : Md) (pre : String) : List String :=
  (mdKeys md).filter (fun k => strHasPre pre k)

/-- The number of keys of the record that begin with `pre`. -/
def countPrefix (md : Md) (pre : String) : Nat := (preKeys md pre).length

/-- The metadata keys written by slot `i` of the loop. -/
def kxK (i : Nat) : String := pfix ++ "x_image_" ++ toString i

def kyK (i : Nat) : String := pfix ++ "y_image_" ++ toString i

def kmK (i : Nat) : String := pfix ++ "magnification_" ++ toString i

def kpK (i : Nat) : String := pfix ++ "mag_pert_" ++ toString i

def ktK (i : Nat) : String := pfix ++ "time_delay_" ++ toString i

/-- The fixed key prefixes of the point-source slot families. -/
def preX : String := "point_source_parameters_x_image_"

def preY : String := "point_source_parameters_y_image_"

def preM : String := "point_source_parameters_magnification_"

def preP : String := "point_source_parameters_mag_pert_"

def preT : String := "point_source_parameters_time_delay_"

/-- A rendered image: a 2-D array of pixel values. -/
abbrev Image := List (List Rat)

/-- `np.sum` over an image. -/
def imgSum (im : Image) : Rat :=
  (im.map (fun row => row.foldl (· + ·) 0)).foldl (· + ·) 0

/-- Elementwise image addition (numpy `image += noise`). -/
def imgAdd (a b : Image) : Image := List.zipWith (List.zipWith (· + ·)) a b

/-- Results of the external lenstronomy calls made by
`_draw_image_standard`: the rendered image (`image_model.image`), the
flux totals used by the flux-ratio magnification cut, the detector-noise
realization (`single_band.noise_for_model`), the point-source quantities,
and the derived metadata values. -/
structure StdOracles where
  image : Image
  lens_light_total : Rat
  source_light_total : Rat
  noiseFn : Image → Image
  psInputs : PsInputs
  derived : DerivedOracles

/-- `_draw_image_standard` (source lines 535-644): build the models and
render (external), apply the flux-ratio magnification cut, add noise when
requested, rebuild the metadata from the sample, and, when a point source
is configured, compute the point-source metadata — its typed rejection is
re-raised as `FailedCriteriaError`, any other exception propagates, and a
-1 return code would yield the sentinel pair `(None, None)`.  The result
carries the updated warning state of `get_metadata`. -/
def draw_image_standard (cfg : HandlerConfig) (orc : StdOracles) (sample : Sample)
    (ser : Bool) (log : List String) (add_noise : Bool) (apply_psf : Bool) :
    Except PErr (Option Image × Option Md) × Bool × List String :=
  let image := orc.image
  let magCutFail :=
    match cfg.mag_cut with
    | some c => decide ((imgSum image - orc.lens_light_total) / orc.source_light_total < c)
    | none => false
  if magCutFail then (Except.error PErr.failedCriteria, ser, log)
  else
    let image := if add_noise then imgAdd image (orc.noiseFn image) else image
    let r := get_metadata cfg orc.derived sample ser log
    let metadata := r.1
    if cfg.point_source_present then
      match calculate_ps_metadata cfg orc.psInputs metadata with
      | Except.error PErr.failedCriteria => (Except.error PErr.failedCriteria, r.2)
      | Except.error e => (Except.error e, r.2)
      | Except.ok (md', success) =>
        if success = -1 then (Except.ok (none, none), r.2)
        else (Except.ok (some image, some md'), r.2)
    else (Except.ok (some image, some metadata), r.2)

/-- The metadata record after the head writes of
`_calculate_ps_metadata` (image count and lens / point-source offset),
before the time-delay block. -/
def psHeadMd (inp : PsInputs) (md : Md) : Md :=
  mdSet (mdSet md (pfix ++ "num_images") (.vInt (inp.x_image.length : Int)))
    (pfix ++ "lens_ps_offset")
    (.vFloat (.sqrtOf ((inp.ra_source - inp.center_x) ^ 2 +
      (inp.dec_source - inp.center_y) ^ 2)))

/-- The rejection disjunction of claim C3, phrased over the same inputs
the code reads; the magnification term refers to the (possibly
perturbation-multiplied) magnifications the code computes. -/
def psFailCondition (cfg : HandlerConfig) (inp : PsInputs) : Prop :=
  5 < inp.x_image.length ∨ inp.x_image.length < 2 ∨
  (cfg.doubles_quads_only = true ∧ inp.x_image.length ≠ 2 ∧ inp.x_image.length ≠ 4) ∨
  (cfg.quads_only = true ∧ inp.x_image.length ≠ 4) ∨
  (∃ cut mags, cfg.ps_magnification_cut = some cut ∧ psMags inp = Except.ok mags ∧
    listMean (mags.map (fun m => |m|)) < cut)

/-- A concrete point-source input: a double with no perturbation and no
time delays. -/
def inp0 : PsInputs :=
  { x_image := [1, -1], y_image := [2, -2], raw_magnifications := [3, -4],
    mag_pert := none, compute_time_delays := false, kappa_ext := none,
    time_delay_errors := none, arrival_times := [], ddt_val := 0,
    ra_source := 0, dec_source := 0, center_x := 0, center_y := 0 }

/-- Concrete oracles for the standard rendering path. -/
def stdOrc0 : StdOracles :=
  { image := [[1, 0], [0, 1]], lens_light_total := 0, source_light_total := 1,
    noiseFn := fun im => im, psInputs := inp0, derived := orc0 }

/-- The concrete point-source metadata produced for `inp0` on an empty
record. -/
def psMd0 : Md :=
  [(pfix ++ "num_images", Value.vInt 2),
   (pfix ++ "lens_ps_offset", Value.vFloat (PFloat.sqrtOf ((0 - 0) ^ 2 + (0 - 0) ^ 2))),
   (pfix ++ "x_image_0", Value.vFloat (PFloat.num 1)),
   (pfix ++ "y_image_0", Value.vFloat (PFloat.num 2)),
   (pfix ++ "magnification_0", Value.vFloat (PFloat.num 3)),
   (pfix ++ "x_image_1", Value.vFloat (PFloat.num (-1))),
   (pfix ++ "y_image_1", Value.vFloat (PFloat.num (-2))),
   (pfix ++ "magnification_1", Value.vFloat (PFloat.num (-4))),
   (pfix ++ "x_image_2", Value.vFloat PFloat.nan),
   (pfix ++ "y_image_2", Value.vFloat PFloat.nan),
   (pfix ++ "magnification_2", Value.vFloat PFloat.nan),
   (pfix ++ "x_image_3", Value.vFloat PFloat.nan),
   (pfix ++ "y_image_3", Value.vFloat PFloat.nan),
   (pfix ++ "magnification_3", Value.vFloat PFloat.nan)]

/-- The concrete result of `draw_image_standard` on `stdOrc0` without
noise. -/
def p10 : Option Image × Option Md :=
  (some [[1, 0], [0, 1]], some psMd0)

/-- The fields of the sample that `_draw_image_drizzle` reads or writes:
the drizzle parameters, the detector pixel scale and the PSF parameters;
`rest` stands for the remainder of the sample, which the method never
touches. -/
structure DSample where
  detector_pixel_scale : Rat
  supersample_pixel_scale : Rat
  output_pixel_scale : Rat
  offset_pattern : Nat
  wcs_distortion : Bool
  psf_supersample_factor : Option Int
  psf_type : String
  psf_point_source_supersampling_factor : Option Int
  rest : Nat
  deriving DecidableEq, Repr

/-- The numerics kwargs keys that `_draw_image_drizzle` touches
(each optional, as in the Python dict). -/
structure KNumerics where
  supersampling_factor : Option Int
  point_source_supersampling_factor : Option Int
  supersampling_convolution : Option Bool
  deriving DecidableEq, Repr

/-- The instance state `_draw_image_drizzle` mutates: `self.sample`,
`self.kwargs_numerics` and `self.numpix`. -/
structure DState where
  sample : DSample
  kwargs_numerics : KNumerics
  numpix : Int
  deriving DecidableEq, Repr

/-- Python `int()` applied to a float: truncation toward zero. -/
def pytrunc (q : Rat) : Int := if q < 0 then q.ceil else q.floor

/-- The warning messages of the drizzle path (source lines 686-694 and
720-721). -/
def kwWarn1Msg : String := "kwargs_numerics supersampling_factor modified for drizzle"

def kwWarn2Msg : String :=
  "kwargs_numerics point_source_supersampling_factor modified for drizzle"

def psfWarnMsg : String := "No psf_supersample_factor provided so 1 will be assumed."

/-- The numerics-kwargs adjustment of `_draw_image_drizzle` (source lines
683-698): scale each present supersampling factor down by the
supersampling ratio (truncated, minimum 1), emitting the corresponding
warning only while the module flag is set and clearing the flag — the
flags are initialized to False (source lines 29-30), so the warn branch
never fires. -/
def modifyKwargsForDrizzle (kn : KNumerics) (g : Globals) (ss_scaling : Rat) :
    KNumerics × Globals :=
  let r1 :=
    match kn.supersampling_factor with
    | some f =>
      let g := if g.kwargsNumericWarning1 then
          { g with emitted := g.emitted ++ [kwWarn1Msg], kwargsNumericWarning1 := false }
        else g
      let f' : Option Int := some (max 1 (pytrunc ((f : Rat) / ss_scaling)))
      ({ kn with supersampling_factor := f' }, g)
    | none => (kn, g)
  let kn := r1.1
  let g := r1.2
  match kn.point_source_supersampling_factor with
  | some f =>
    let g := if g.kwargsNumericWarning2 then
        { g with emitted := g.emitted ++ [kwWarn2Msg], kwargsNumericWarning2 := false }
      else g
    let f' : Option Int := some (max 1 (pytrunc ((f : Rat) / ss_scaling)))
    ({ kn with point_source_supersampling_factor := f' }, g)
  | none => (kn, g)

/-- The outcome of the inner `_draw_image_standard` call made by the
drizzle path: a high-resolution image and metadata together with the
(possibly catalog-updated) sample, the typed criteria rejection, or any
other propagating exception. -/
inductive StdResult where
  | ok : Image → Md → DSample → StdResult
  | failedCriteria : StdResult
  | otherError : StdResult
  deriving DecidableEq, Repr

/-- `_draw_image_drizzle` (source lines 646-780): snapshot the sample,
numerics kwargs and pixel count; scale the pixel count by the
supersampling ratio and temporarily override the detector pixel scale
with the supersample scale; scale the numerics supersampling factors
down; render via the standard path (the `stdCall` oracle, which sees the
mutated state and may itself mutate the sample); on the typed rejection
restore all three snapshots and re-raise; otherwise restore pixel scale
and pixel count, resolve the PSF supersample factor (warning when absent;
fatal ValueError when it exceeds the supersampling ratio or mismatches a
PIXEL PSF's own factor), disable internal supersampling, resample via
`hubblify` (the `hubblifyFn` oracle), restore the sample and numerics
snapshots, and merge in the metadata recomputed from the restored sample
(the `mdUpdate` oracle). -/
def draw_image_drizzle (g : Globals) (st : DState)
    (stdCall : DState → Globals → StdResult × Globals)
    (hubblifyFn : Image → Image) (mdUpdate : Md → Md) :
    Except PErr (Image × Md) × DState × Globals :=
  let sample_copy := st.sample
  let kwargs_numerics_copy := st.kwargs_numerics
  let numpix_copy := st.numpix
  let supersample_pixel_scale := st.sample.supersample_pixel_scale
  let detector_pixel_scale := st.sample.detector_pixel_scale
  let ss_scaling := detector_pixel_scale / supersample_pixel_scale
  let st := { st with numpix := pytrunc ((st.numpix : Rat) * ss_scaling) }
  let st := { st with sample :=
    { st.sample with detector_pixel_scale := supersample_pixel_scale } }
  let kng := modifyKwargsForDrizzle st.kwargs_numerics g ss_scaling
  let st := { st with kwargs_numerics := kng.1 }
  let g := kng.2
  match stdCall st g with
  | (StdResult.failedCriteria, g) =>
    (Except.error PErr.failedCriteria,
      { sample := sample_copy, kwargs_numerics := kwargs_numerics_copy,
        numpix := numpix_copy }, g)
  | (StdResult.otherError, g) => (Except.error PErr.other, st, g)
  | (StdResult.ok image_ss metadata newSample, g) =>
    let st := { st with sample := newSample }
    let st := { st with sample :=
      { st.sample with detector_pixel_scale := detector_pixel_scale } }
    let st := { st with numpix := numpix_copy }
    let pg : Int × Globals :=
      match st.sample.psf_supersample_factor with
      | some v => (v, g)
      | none => (1, { g with emitted := g.emitted ++ [psfWarnMsg] })
    let psf_supersample_factor := pg.1
    let g := pg.2
    if (psf_supersample_factor : Rat) > ss_scaling then
      (Except.error PErr.valueError, st, g)
    else if st.sample.psf_type = "PIXEL" ∧
        (st.sample.psf_point_source_supersampling_factor = none ∨
         st.sample.psf_point_source_supersampling_factor ≠ some psf_supersample_factor) then
      (Except.error PErr.valueError, st, g)
    else
      let st := { st with kwargs_numerics :=
        { point_source_supersampling_factor := some 1,
          supersampling_factor := some 1,
          supersampling_convolution := some false } }
      let st := { st with sample := { st.sample with
        psf_point_source_supersampling_factor := some 1,
        detector_pixel_scale :=
          st.sample.detector_pixel_scale / (psf_supersample_factor : Rat) } }
      let image := hubblifyFn image_ss
      let st := { st with sample := sample_copy }
      let st := { st with kwargs_numerics := kwargs_numerics_copy }
      let metadata := mdUpdate metadata
      (Except.ok (image, metadata), st, g)

/-- A concrete drizzle-path state: detector pixel scale 2, supersample
pixel scale 1 (supersampling ratio 2), both numerics factors 4. -/
def dsW : DSample :=
  { detector_pixel_scale := 2, supersample_pixel_scale := 1, output_pixel_scale := 4,
    offset_pattern := 0, wcs_distortion := false, psf_supersample_factor := some 1,
    psf_type := "GAUSSIAN", psf_point_source_supersampling_factor := none, rest := 7 }

def stW : DState :=
  { sample := dsW, kwargs_numerics := ⟨some 4, some 4, none⟩, numpix := 64 }

/-- An inner standard render that raises the typed criteria rejection. -/
def stdFc : DState → Globals → StdResult × Globals :=
  fun _ g => (StdResult.failedCriteria, g)

/-- An inner standard render that raises some other exception (for
example the ValueError for a missing `kappa_ext`). -/
def stdOther : DState → Globals → StdResult × Globals :=
  fun _ g => (StdResult.otherError, g)

/-- The seed-related state of a `ConfigHandler` instance together with
the two process-wide random streams: numpy's stream is modelled by the
last seed tuple planted in it plus the number of draws made since, and
numba's by its last integer seed. -/
structure SeedState where
  base_seed : List Nat
  reseed_counter : Nat
  np_seed : List Nat
  np_draws : Nat
  numba_seed : Nat
  deriving DecidableEq, Repr

/-- The deterministic functions the pseudo-random machinery and the
render pipeline implement, fixed for a whole process: `randint` is
`np.random.randint(np.iinfo(np.uint32).max)` evaluated right after
seeding numpy with the given tuple; `sampleFn` is `sampler.sample()` as
a function of the numpy stream state; `renderFn` is the whole rendering
pipeline as a function of the current sample and both stream states,
returning the (image, metadata) output, the advanced stream states and
the possibly catalog-updated sample. -/
structure DrawFns where
  randint : List Nat → Nat
  sampleFn : List Nat × Nat → Sample × Nat
  renderFn : Sample → List Nat × Nat → Nat →
    (Option Image × Option Md) × Nat × Nat × Sample

/-- `reseed` (source lines 836-854): use the base seed on the first call
and the base seed with the counter appended afterwards, seed numpy with
it, advance the counter, and reseed numba with an integer drawn from the
freshly seeded numpy stream. -/
def reseed (randint : List Nat → Nat) (st : SeedState) : List Nat × SeedState :=
  let seed := if st.reseed_counter = 0 then st.base_seed
    else st.base_seed ++ [st.reseed_counter]
  let st := { st with np_seed := seed, np_draws := 0 }
  let st := { st with reseed_counter := st.reseed_counter + 1 }
  let v := randint st.np_seed
  let st := { st with np_draws := 1, numba_seed := v }
  (seed, st)

/-- One `draw_image` call as the seed controller sees it (source lines
782-834): reseed both streams, optionally draw a new sample from the
freshly seeded numpy stream, render (consuming both streams and possibly
mutating the sample), and return the output with the seed that is
stamped into the metadata. -/
def draw_image_seeded (F : DrawFns) (st : SeedState) (sample : Sample)
    (new_sample : Bool) :
    (List Nat × (Option Image × Option Md)) × SeedState × Sample :=
  let r := reseed F.randint st
  let seed := r.1
  let st := r.2
  let sd := if new_sample then
      let s := F.sampleFn (st.np_seed, st.np_draws)
      (s.1, { st with np_draws := s.2 })
    else (sample, st)
  let sample := sd.1
  let st := sd.2
  let out := F.renderFn sample (st.np_seed, st.np_draws) st.numba_seed
  ((seed, out.1), { st with np_draws := out.2.1, numba_seed := out.2.2.1 }, out.2.2.2)

/-- A freshly constructed handler's seed state: counter zero.  The numpy
and numba stream components are the ambient, unseeded states at
construction time; the constructor draws its initialization sample from
that ambient stream before any reseeding. -/
def mkSeedState (base : List Nat) : SeedState :=
  { base_seed := base, reseed_counter := 0, np_seed := [], np_draws := 0,
    numba_seed := 0 }

/-- The state and sample after `n` `draw_image` calls, all with
`new_sample = True` (the default). -/
def drawRun (F : DrawFns) (base : List Nat) (initSample : Sample) :
    Nat → SeedState × Sample
  | 0 => (mkSeedState base, initSample)
  | n + 1 =>
    let r := drawRun F base initSample n
    (draw_image_seeded F r.1 r.2 true).2

/-- The seed and output of the (n+1)-st `draw_image` call (0-based `n`),
all calls drawing a new sample. -/
def nthDraw (F : DrawFns) (base : List Nat) (initSample : Sample) (n : Nat) :
    List Nat × (Option Image × Option Md) :=
  let r := drawRun F base initSample n
  (draw_image_seeded F r.1 r.2 true).1

/-- The tail of `draw_image` (source lines 811-834): the typed rejection
becomes the sentinel pair, any other exception propagates, and on success
the optional interior mask is applied (the external grid computation is
the `maskFn` oracle) and the seed is stamped into the metadata.  A
sentinel pair arriving without an exception (impossible; see C10) would
reach the mask / seed-stamping statements and fail on `None`. -/
def draw_image_core (r : Except PErr (Option Image × Option Md))
    (mask_radius : Option Rat) (maskFn : Image → Image) (seed : List Nat) :
    Except PErr (Option Image × Option Md) :=
  match r with
  | Except.error PErr.failedCriteria => Except.ok (none, none)
  | Except.error e => Except.error e
  | Except.ok (some image, some metadata) =>
    let image := match mask_radius with
      | some _ => maskFn image
      | none => image
    Except.ok (some image, some (mdSet metadata "seed" (Value.vTuple seed)))
  | Except.ok _ => Except.error PErr.typeError

/-- `draw_image` for a non-drizzle configuration (source lines 782-834):
reseed, optionally draw a new sample, render via `_draw_image_standard`
with the configured noise flag, then the common tail. -/
def draw_image_std (cfg : HandlerConfig) (orc : StdOracles) (F : DrawFns)
    (sst : SeedState) (cur : Sample) (g : Globals) (maskFn : Image → Image)
    (new_sample : Bool) :
    Except PErr (Option Image × Option Md) × Bool × List String × SeedState :=
  let r := reseed F.randint sst
  let seed := r.1
  let sst := r.2
  let sd := if new_sample then (F.sampleFn (sst.np_seed, sst.np_draws)).1 else cur
  let dr := draw_image_standard cfg orc sd g.serializationWarning g.emitted
    cfg.add_noise true
  (draw_image_core dr.1 cfg.mask_radius maskFn seed, dr.2.1, dr.2.2, sst)

/-- `draw_image` for a drizzle configuration (source lines 782-834):
reseed, optionally replace the sample with a freshly drawn one, render
via `_draw_image_drizzle`, then the common tail (a drizzle success is
always a non-sentinel pair). -/
def draw_image_driz (g : Globals) (st : DState)
    (stdCall : DState → Globals → StdResult × Globals)
    (hubblifyFn : Image → Image) (mdUpdate : Md → Md)
    (randint : List Nat → Nat) (sst : SeedState) (mask_radius : Option Rat)
    (maskFn : Image → Image) (newSampleD : Option DSample) :
    Except PErr (Option Image × Option Md) × DState × Globals × SeedState :=
  let r := reseed randint sst
  let seed := r.1
  let sst := r.2
  let st := match newSampleD with
    | some s => { st with sample := s }
    | none => st
  let dr := draw_image_drizzle g st stdCall hubblifyFn mdUpdate
  let res := Except.map (fun p => (some p.1, some p.2)) dr.1
  (draw_image_core res mask_radius maskFn seed, dr.2.1, dr.2.2, sst)

@[simp] theorem mdKeys_nil : mdKeys [] = [] := rfl

@[simp] theorem mdKeys_cons (p : String × Value) (md : Md) :
    mdKeys (p :: md) = p.1 :: mdKeys md := rfl

@[simp] theorem mdKeys_append (a b : Md) : mdKeys (a ++ b) = mdKeys a ++ mdKeys b := by
  simp [mdKeys]

theorem mdLookup_mdSet (md : Md) (k k' : String) (v : Value) :
    mdLookup (mdSet md k v) k' = if k' = k then some v else mdLookup md k' := by
  induction md with
  | nil =>
    rcases eq_or_ne k' k with h | h
    · subst h; simp [mdSet, mdLookup]
    · simp [mdSet, mdLookup, h, Ne.symm h]
  | cons p rest ih =>
    by_cases hp : p.1 = k
    · rcases eq_or_ne k' k with h | h
      · subst h; simp [mdSet, mdLookup, hp]
      · simp [mdSet, mdLookup, hp, h, Ne.symm h]
    · rcases eq_or_ne k' k with h | h
      · subst h; simp [mdSet, mdLookup, hp, ih]
      · by_cases hq : p.1 = k'
        · simp [mdSet, mdLookup, hp, hq, h]
        · simp [mdSet, mdLookup, hp, hq, h, ih]

theorem mdKeys_mdSet (md : Md) (k : String) (v : Value) :
    mdKeys (mdSet md k v) = if k ∈ mdKeys md then mdKeys md else mdKeys md ++ [k] := by
  induction md with
  | nil => simp [mdSet]
  | cons p rest ih =>
    by_cases hp : p.1 = k
    · simp [mdSet, hp]
    · simp only [mdSet, if_neg hp, mdKeys_cons, List.mem_cons]
      rw [ih]
      have : ¬ k = p.1 := fun h => hp h.symm
      by_cases hm : k ∈ mdKeys rest <;> simp [hm, this]

theorem mdLookup_eq_none_of_not_mem (md : Md) (k : String) (h : k ∉ mdKeys md) :
    mdLookup md k = none := by
  induction md with
  | nil => rfl
  | cons p rest ih =>
    simp only [mdKeys_cons, List.mem_cons, not_or] at h
    have h1 : ¬ p.1 = k := fun hh => h.1 hh.symm
    simp [mdLookup, h1, ih h.2]

theorem mdLookup_isSome_of_mem (md : Md) (k : String) (h : k ∈ mdKeys md) :
    ∃ v, mdLookup md k = some v := by
  induction md with
  | nil => simp at h
  | cons p rest ih =>
    by_cases hp : p.1 = k
    · exact ⟨p.2, by simp [mdLookup, hp]⟩
    · simp only [mdKeys_cons, List.mem_cons] at h
      rcases h with h | h
      · exact absurd h.symm hp
      · obtain ⟨v, hv⟩ := ih h
        exact ⟨v, by simp [mdLookup, hp, hv]⟩

theorem mem_mdKeys_mdSet (md : Md) (k0 k : String) (v : Value)
    (h : k ∈ mdKeys (mdSet md k0 v)) : k ∈ mdKeys md ∨ k = k0 := by
  rw [mdKeys_mdSet] at h
  by_cases hm : k0 ∈ mdKeys md
  · simp [hm] at h; exact Or.inl h
  · simp only [hm, if_false, List.mem_append, List.mem_singleton] at h
    exact h

theorem scalarOut_eq_none_iff (v : Value) : scalarOut v = none ↔ v.isScalar = false := by
  cases v <;> simp [scalarOut, Value.isScalar]

theorem flattenParams_cons_step (c key : String) (v : Value)
    (rest : List (String × Value)) (md : Md) (ser : Bool) (log : List String)
    (hex : (c, key) ∉ EXCLUDE_FROM_METADATA) :
    flattenParams c ((key, v) :: rest) md ser log =
      match scalarOut v with
      | some w => flattenParams c rest (mdSet md (c ++ "_" ++ key) w) ser log
      | none =>
        if ser then flattenParams c rest md false (log ++ [serializationWarnMsg c key])
        else flattenParams c rest md ser log := by
  cases v <;> simp [flattenParams, scalarOut, hex]

theorem flattenSpecPair_eq (c key : String) (v : Value)
    (hex : (c, key) ∉ EXCLUDE_FROM_METADATA) :
    flattenSpecPair c key v = (scalarOut v).map (fun w => (c ++ "_" ++ key, w)) := by
  cases v <;> simp [flattenSpecPair, scalarOut, hex]

theorem mdSet_eq_append_of_not_mem (md : Md) (k : String) (v : Value) (h : k ∉ mdKeys md) :
    mdSet md k v = md ++ [(k, v)] := by
  induction md with
  | nil => rfl
  | cons p rest ih =>
    simp only [mdKeys_cons, List.mem_cons, not_or] at h
    have h1 : ¬ p.1 = k := fun hh => h.1 hh.symm
    simp [mdSet, h1, ih h.2]

theorem hasDroppableP_cons (c key : String) (v : Value) (rest : List (String × Value)) :
    hasDroppableP c ((key, v) :: rest) =
      ((decide ((c, key) ∉ EXCLUDE_FROM_METADATA) && !v.isScalar) || hasDroppableP c rest) := by
  simp [hasDroppableP]

/-- The record part of the flattening loop over one component equals the
spec-side flattening, provided the flattened keys are fresh and distinct
(which Python dict semantics guarantees for a well-formed sample). -/
theorem flattenParams_md_eq (c : String) (ps : List (String × Value)) :
    ∀ (md : Md) (ser : Bool) (log : List String),
    (∀ kv ∈ ps, (c ++ "_" ++ kv.1) ∉ mdKeys md) →
    (ps.map (fun kv => c ++ "_" ++ kv.1)).Nodup →
    (flattenParams c ps md ser log).1 =
      md ++ ps.filterMap (fun kv => flattenSpecPair c kv.1 kv.2) := by
  induction ps with
  | nil => intro md ser log _ _; simp [flattenParams]
  | cons kv rest ih =>
    intro md ser log hfresh hnd
    obtain ⟨key, v⟩ := kv
    simp only [List.map_cons, List.nodup_cons] at hnd
    by_cases hex : (c, key) ∈ EXCLUDE_FROM_METADATA
    · simp only [flattenParams, if_pos hex]
      rw [ih md ser log (fun kv2 h2 => hfresh kv2 (List.mem_cons_of_mem _ h2)) hnd.2]
      simp [List.filterMap_cons, flattenSpecPair, hex]
    · rw [flattenParams_cons_step c key v rest md ser log hex]
      have hspec := flattenSpecPair_eq c key v hex
      cases hw : scalarOut v with
      | none =>
        have hrec : ∀ s l, (flattenParams c rest md s l).1 =
            md ++ rest.filterMap (fun kv2 => flattenSpecPair c kv2.1 kv2.2) := fun s l =>
          ih md s l (fun kv2 h2 => hfresh kv2 (List.mem_cons_of_mem _ h2)) hnd.2
        simp only [hw] at hspec
        by_cases hs : ser = true <;>
          simp [hs, hrec, List.filterMap_cons, hspec]
      | some w =>
        have hK : (c ++ "_" ++ key) ∉ mdKeys md :=
          hfresh (key, v) (List.mem_cons_self _ _)
        dsimp only
        rw [mdSet_eq_append_of_not_mem md _ w hK]
        have hfresh2 : ∀ kv2 ∈ rest,
            (c ++ "_" ++ kv2.1) ∉ mdKeys (md ++ [(c ++ "_" ++ key, w)]) := by
          intro kv2 h2
          simp only [mdKeys_append, List.mem_append]
          rintro (h | h)
          · exact hfresh kv2 (List.mem_cons_of_mem _ h2) h
          · simp only [mdKeys, List.map_cons, List.map_nil, List.mem_singleton] at h
            exact hnd.1 (h ▸ List.mem_map_of_mem (fun kv3 => c ++ "_" ++ kv3.1) h2)
        rw [ih _ ser log hfresh2 hnd.2]
        simp only [hw, Option.map_some] at hspec
        simp [List.filterMap_cons, hspec, List.append_assoc]

/-- The warning flag after the per-component loop: still set only if it
was set and nothing was dropped. -/
theorem flattenParams_flag (c : String) (ps : List (String × Value)) :
    ∀ (md : Md) (ser : Bool) (log : List String),
    (flattenParams c ps md ser log).2.1 = (ser && !hasDroppableP c ps) := by
  induction ps with
  | nil => intro md ser log; simp [flattenParams, hasDroppableP]
  | cons kv rest ih =>
    intro md ser log
    obtain ⟨key, v⟩ := kv
    by_cases hex : (c, key) ∈ EXCLUDE_FROM_METADATA
    · simp [flattenParams, hex, ih, hasDroppableP_cons]
    · rw [flattenParams_cons_step c key v rest md ser log hex]
      cases hw : scalarOut v with
      | none =>
        have hns : v.isScalar = false := (scalarOut_eq_none_iff v).mp hw
        by_cases hs : ser = true <;>
          simp [hs, ih, hasDroppableP_cons, hex, hns]
      | some w =>
        have hsc : v.isScalar = true := by
          by_contra hns
          rw [(scalarOut_eq_none_iff v).mpr (by simpa using hns)] at hw
          exact Option.noConfusion hw
        simp [ih, hasDroppableP_cons, hex, hsc]

/-- The number of warnings the per-component loop emits: one if the flag
was set and a drop occurred, none otherwise. -/
theorem flattenParams_log (c : String) (ps : List (String × Value)) :
    ∀ (md : Md) (ser : Bool) (log : List String),
    (flattenParams c ps md ser log).2.2.length =
      log.length + (if ser && hasDroppableP c ps then 1 else 0) := by
  induction ps with
  | nil => intro md ser log; simp [flattenParams, hasDroppableP]
  | cons kv rest ih =>
    intro md ser log
    obtain ⟨key, v⟩ := kv
    by_cases hex : (c, key) ∈ EXCLUDE_FROM_METADATA
    · simp [flattenParams, hex, ih, hasDroppableP_cons]
    · rw [flattenParams_cons_step c key v rest md ser log hex]
      cases hw : scalarOut v with
      | none =>
        have hns : v.isScalar = false := (scalarOut_eq_none_iff v).mp hw
        by_cases hs : ser = true <;>
          simp [hs, ih, hasDroppableP_cons, hex, hns]
      | some w =>
        have hsc : v.isScalar = true := by
          by_contra hns
          rw [(scalarOut_eq_none_iff v).mpr (by simpa using hns)] at hw
          exact Option.noConfusion hw
        simp [ih, hasDroppableP_cons, hex, hsc]

@[simp] theorem sampleFlatKeys_nil : sampleFlatKeys [] = [] := rfl

@[simp] theorem sampleFlatKeys_cons (c : String) (ps : List (String × Value)) (rest : Sample) :
    sampleFlatKeys ((c, ps) :: rest) =
      ps.map (fun kv => c ++ "_" ++ kv.1) ++ sampleFlatKeys rest := by
  simp [sampleFlatKeys]

theorem flattenSpecPair_key (c key : String) (v : Value) (p : String × Value)
    (h : flattenSpecPair c key v = some p) : p.1 = c ++ "_" ++ key := by
  by_cases hex : (c, key) ∈ EXCLUDE_FROM_METADATA
  · simp [flattenSpecPair, hex] at h
  · rw [flattenSpecPair_eq c key v hex] at h
    cases hw : scalarOut v with
    | none => rw [hw] at h; simp at h
    | some w => rw [hw] at h; simp at h; rw [← h]

theorem mdKeys_filterMapSpec_subset (c : String) (ps : List (String × Value)) :
    ∀ k ∈ mdKeys (ps.filterMap (fun kv => flattenSpecPair c kv.1 kv.2)),
      k ∈ ps.map (fun kv => c ++ "_" ++ kv.1) := by
  intro k hk
  simp only [mdKeys, List.mem_map] at hk
  obtain ⟨p, hp, hpk⟩ := hk
  rw [List.mem_filterMap] at hp
  obtain ⟨kv, hkv, hs⟩ := hp
  rw [List.mem_map]
  exact ⟨kv, hkv, by rw [← hpk]; exact (flattenSpecPair_key c kv.1 kv.2 p hs).symm⟩

theorem flattenSample_md_eq : ∀ (sample : Sample) (md : Md) (ser : Bool) (log : List String),
    (∀ k ∈ sampleFlatKeys sample, k ∉ mdKeys md) →
    (sampleFlatKeys sample).Nodup →
    (flattenSample sample md ser log).1 = md ++ flattenSpecList sample := by
  intro sample
  induction sample with
  | nil => intro md ser log _ _; simp [flattenSample, flattenSpecList]
  | cons cp rest ih =>
    intro md ser log hfresh hnd
    obtain ⟨c, ps⟩ := cp
    rw [sampleFlatKeys_cons] at hnd hfresh
    have hnd1 := (List.nodup_append.mp hnd).1
    have hnd2 := (List.nodup_append.mp hnd).2.1
    have hdisj := (List.nodup_append.mp hnd).2.2
    simp only [flattenSample]
    rw [flattenParams_md_eq c ps md ser log
      (fun kv hkv => hfresh _ (List.mem_append_left _ (List.mem_map_of_mem _ hkv))) hnd1]
    rw [ih _ _ _ ?hf hnd2]
    · simp [flattenSpecList, List.append_assoc]
    case hf =>
      intro k hk
      simp only [mdKeys_append, List.mem_append]
      rintro (h | h)
      · exact hfresh k (List.mem_append_right _ hk) h
      · exact hdisj (mdKeys_filterMapSpec_subset c ps k h) hk

theorem flattenSample_flag : ∀ (sample : Sample) (md : Md) (ser : Bool) (log : List String),
    (flattenSample sample md ser log).2.1 = (ser && !hasDroppable sample) := by
  intro sample
  induction sample with
  | nil => intro md ser log; simp [flattenSample, hasDroppable]
  | cons cp rest ih =>
    intro md ser log
    obtain ⟨c, ps⟩ := cp
    simp only [flattenSample]
    rw [ih, flattenParams_flag]
    have : hasDroppable ((c, ps) :: rest) = (hasDroppableP c ps || hasDroppable rest) := by
      simp [hasDroppable]
    rw [this]
    cases ser <;> cases hasDroppableP c ps <;> cases hasDroppable rest <;> rfl

theorem flattenSample_log : ∀ (sample : Sample) (md : Md) (ser : Bool) (log : List String),
    (flattenSample sample md ser log).2.2.length =
      log.length + (if ser && hasDroppable sample then 1 else 0) := by
  intro sample
  induction sample with
  | nil => intro md ser log; simp [flattenSample, hasDroppable]
  | cons cp rest ih =>
    intro md ser log
    obtain ⟨c, ps⟩ := cp
    simp only [flattenSample]
    rw [ih, flattenParams_log, flattenParams_flag]
    have : hasDroppable ((c, ps) :: rest) = (hasDroppableP c ps || hasDroppable rest) := by
      simp [hasDroppable]
    rw [this]
    cases hs : ser <;> cases hp : hasDroppableP c ps <;> cases hr : hasDroppable rest <;>
      simp [Nat.add_assoc]

theorem mem_mdKeys_flattenParams (c : String) (ps : List (String × Value)) :
    ∀ (md : Md) (ser : Bool) (log : List String) (k : String),
    k ∈ mdKeys (flattenParams c ps md ser log).1 →
    k ∈ mdKeys md ∨ ∃ kk v, (kk, v) ∈ ps ∧ (c, kk) ∉ EXCLUDE_FROM_METADATA ∧
      k = c ++ "_" ++ kk := by
  induction ps with
  | nil => intro md ser log k h; exact Or.inl (by simpa [flattenParams] using h)
  | cons kv rest ih =>
    intro md ser log k h
    obtain ⟨key, v⟩ := kv
    by_cases hex : (c, key) ∈ EXCLUDE_FROM_METADATA
    · rw [show flattenParams c ((key, v) :: rest) md ser log
          = flattenParams c rest md ser log by simp [flattenParams, hex]] at h
      rcases ih md ser log k h with h | ⟨kk, w, hm, hx, hk⟩
      · exact Or.inl h
      · exact Or.inr ⟨kk, w, List.mem_cons_of_mem _ hm, hx, hk⟩
    · rw [flattenParams_cons_step c key v rest md ser log hex] at h
      cases hw : scalarOut v with
      | none =>
        rw [hw] at h
        have h' : k ∈ mdKeys md ∨ ∃ kk w, (kk, w) ∈ rest ∧
            (c, kk) ∉ EXCLUDE_FROM_METADATA ∧ k = c ++ "_" ++ kk := by
          cases ser
          · rw [if_neg (by simp)] at h
            exact ih md false log k h
          · rw [if_pos rfl] at h
            exact ih md false _ k h
        rcases h' with h' | ⟨kk, w, hm, hx, hk⟩
        · exact Or.inl h'
        · exact Or.inr ⟨kk, w, List.mem_cons_of_mem _ hm, hx, hk⟩
      | some w =>
        rw [hw] at h
        rcases ih _ ser log k h with h' | ⟨kk, u, hm, hx, hk⟩
        · rcases mem_mdKeys_mdSet md _ k w h' with h'' | h''
          · exact Or.inl h''
          · exact Or.inr ⟨key, v, List.mem_cons_self _ _, hex, h''⟩
        · exact Or.inr ⟨kk, u, List.mem_cons_of_mem _ hm, hx, hk⟩

theorem mem_mdKeys_flattenSample : ∀ (sample : Sample) (md : Md) (ser : Bool)
    (log : List String) (k : String),
    k ∈ mdKeys (flattenSample sample md ser log).1 →
    k ∈ mdKeys md ∨ ∃ c ps kk v, (c, ps) ∈ sample ∧ (kk, v) ∈ ps ∧
      (c, kk) ∉ EXCLUDE_FROM_METADATA ∧ k = c ++ "_" ++ kk := by
  intro sample
  induction sample with
  | nil => intro md ser log k h; exact Or.inl (by simpa [flattenSample] using h)
  | cons cp rest ih =>
    intro md ser log k h
    obtain ⟨c, ps⟩ := cp
    simp only [flattenSample] at h
    rcases ih _ _ _ k h with h' | ⟨c', ps', kk, v, hm, hkv, hx, hk⟩
    · rcases mem_mdKeys_flattenParams c ps md ser log k h' with h'' | ⟨kk, v, hm, hx, hk⟩
      · exact Or.inl h''
      · exact Or.inr ⟨c, ps, kk, v, List.mem_cons_self _ _, hm, hx, hk⟩
    · exact Or.inr ⟨c', ps', kk, v, List.mem_cons_of_mem _ hm, hkv, hx, hk⟩

theorem mem_mdKeys_get_metadata (cfg : HandlerConfig) (orc : DerivedOracles)
    (sample : Sample) (ser : Bool) (log : List String) (k : String)
    (h : k ∈ mdKeys (get_metadata cfg orc sample ser log).1) :
    (∃ c ps kk v, (c, ps) ∈ sample ∧ (kk, v) ∈ ps ∧
      (c, kk) ∉ EXCLUDE_FROM_METADATA ∧ k = c ++ "_" ++ kk) ∨
    k = "main_deflector_parameters_caustic_area" ∨
    k = "source_parameters_distance_to_caustic" ∨
    k = "main_deflector_parameters_M_encl_15e-1arcsec" := by
  unfold get_metadata at h
  simp only at h
  have hcore : ∀ k', k' ∈ mdKeys (flattenSample sample [] ser log).1 →
      (∃ c ps kk v, (c, ps) ∈ sample ∧ (kk, v) ∈ ps ∧
        (c, kk) ∉ EXCLUDE_FROM_METADATA ∧ k' = c ++ "_" ++ kk) := by
    intro k' h'
    rcases mem_mdKeys_flattenSample sample [] ser log k' h' with h'' | h''
    · simp [mdKeys] at h''
    · exact h''
  by_cases hm : cfg.compute_mass_enclosed <;>
    by_cases hc : cfg.compute_caustic_area <;>
    simp only [hm, hc, if_true, if_false] at h
  · rcases mem_mdKeys_mdSet _ _ _ _ h with h | h
    · rcases mem_mdKeys_mdSet _ _ _ _ h with h | h
      · rcases mem_mdKeys_mdSet _ _ _ _ h with h | h
        · exact Or.inl (hcore k h)
        · exact Or.inr (Or.inl h)
      · exact Or.inr (Or.inr (Or.inl h))
    · exact Or.inr (Or.inr (Or.inr h))
  · rcases mem_mdKeys_mdSet _ _ _ _ h with h | h
    · exact Or.inl (hcore k h)
    · exact Or.inr (Or.inr (Or.inr h))
  · rcases mem_mdKeys_mdSet _ _ _ _ h with h | h
    · rcases mem_mdKeys_mdSet _ _ _ _ h with h | h
      · exact Or.inl (hcore k h)
      · exact Or.inr (Or.inl h)
    · exact Or.inr (Or.inr (Or.inl h))
  · exact Or.inl (hcore k h)

/-- C9: for every sample whose parameter names do not alias the three
excluded flattened keys (which no real sample does, since the flattened
key determines the (component, parameter) pair for the standard component
names), the record returned by `get_metadata` never contains the keys
`source_parameters_source_inclusion_list`,
`drizzle_parameters_offset_pattern` or `source_parameters_cosmos_folder`:
these pairs are unconditionally excluded even when their values are
scalars the flattening rules would otherwise pass through. -/
theorem claim_C9 (cfg : HandlerConfig) (orc : DerivedOracles) (sample : Sample)
    (ser : Bool) (log : List String)
    (hAlias : ∀ c ps k v, (c, ps) ∈ sample → (k, v) ∈ ps →
      (c ++ "_" ++ k = "source_parameters_source_inclusion_list" ∨
       c ++ "_" ++ k = "drizzle_parameters_offset_pattern" ∨
       c ++ "_" ++ k = "source_parameters_cosmos_folder") →
      (c, k) ∈ EXCLUDE_FROM_METADATA) :
    mdLookup (get_metadata cfg orc sample ser log).1
        "source_parameters_source_inclusion_list" = none ∧
    mdLookup (get_metadata cfg orc sample ser log).1
        "drizzle_parameters_offset_pattern" = none ∧
    mdLookup (get_metadata cfg orc sample ser log).1
        "source_parameters_cosmos_folder" = none := by
  have key : ∀ K : String,
      (K = "source_parameters_source_inclusion_list" ∨
       K = "drizzle_parameters_offset_pattern" ∨
       K = "source_parameters_cosmos_folder") →
      K ≠ "main_deflector_parameters_caustic_area" →
      K ≠ "source_parameters_distance_to_caustic" →
      K ≠ "main_deflector_parameters_M_encl_15e-1arcsec" →
      mdLookup (get_metadata cfg orc sample ser log).1 K = none := by
    intro K hK h1 h2 h3
    apply mdLookup_eq_none_of_not_mem
    intro hmem
    rcases mem_mdKeys_get_metadata cfg orc sample ser log K hmem with
      ⟨c, ps, kk, v, hcp, hkv, hx, hk⟩ | h | h | h
    · exact hx (hAlias c ps kk v hcp hkv (by
        rcases hK with hK | hK | hK <;> rw [← hk, hK] <;> simp))
    · exact h1 h
    · exact h2 h
    · exact h3 h
  refine ⟨?_, ?_, ?_⟩
  · exact key _ (Or.inl rfl) (by decide) (by decide) (by decide)
  · exact key _ (Or.inr (Or.inl rfl)) (by decide) (by decide) (by decide)
  · exact key _ (Or.inr (Or.inr rfl)) (by decide) (by decide) (by decide)

/-- Witness for C9: on `sampleC9` the three excluded keys are absent from
the metadata even though `cosmos_folder` holds a string. -/
theorem claim_C9_witness :
    mdLookup (get_metadata cfg0 orc0 sampleC9 true []).1
        "source_parameters_source_inclusion_list" = none ∧
    mdLookup (get_metadata cfg0 orc0 sampleC9 true []).1
        "drizzle_parameters_offset_pattern" = none ∧
    mdLookup (get_metadata cfg0 orc0 sampleC9 true []).1
        "source_parameters_cosmos_folder" = none := by
  apply claim_C9
  intro c ps k v hcp hkv htrig
  simp only [sampleC9, List.mem_cons, List.not_mem_nil, or_false, Prod.mk.injEq] at hcp
  rcases hcp with ⟨hc, hps⟩ | ⟨hc, hps⟩
  · subst hc; subst hps
    simp only [List.mem_cons, List.not_mem_nil, or_false, Prod.mk.injEq] at hkv
    rcases hkv with ⟨hk, _⟩ | ⟨hk, _⟩ | ⟨hk, _⟩ <;> subst hk <;> first
      | decide
      | (exact absurd htrig (by decide))
  · subst hc; subst hps
    simp only [List.mem_cons, List.not_mem_nil, or_false, Prod.mk.injEq] at hkv
    rcases hkv with ⟨hk, _⟩ <;> subst hk <;> decide

/-- C7, amended: for every sample with non-colliding flattened keys, the
flattening loop of `get_metadata` realizes exactly the spec-side record
`flattenSpecList` (excluded pairs dropped silently, booleans coerced to
0/1, str/int/float/None passed through, everything else dropped), the
process-wide flag survives the call if and only if it was set and nothing
was dropped, and the call emits exactly one warning if the flag was set
and a drop occurred, none otherwise. -/
theorem claim_C7 (sample : Sample) (ser : Bool) (log : List String)
    (hnd : (sampleFlatKeys sample).Nodup) :
    (flattenSample sample [] ser log).1 = flattenSpecList sample ∧
    (flattenSample sample [] ser log).2.1 = (ser && !hasDroppable sample) ∧
    (flattenSample sample [] ser log).2.2.length =
      log.length + (if ser && hasDroppable sample then 1 else 0) ∧
    ∀ cfg orc, cfg.compute_caustic_area = false → cfg.compute_mass_enclosed = false →
      (get_metadata cfg orc sample ser log).1 = flattenSpecList sample := by
  have hmd : (flattenSample sample [] ser log).1 = flattenSpecList sample := by
    have := flattenSample_md_eq sample [] ser log (by intro k _; simp [mdKeys]) hnd
    simpa using this
  refine ⟨hmd, flattenSample_flag sample [] ser log, flattenSample_log sample [] ser log,
    fun cfg orc hc hm => ?_⟩
  unfold get_metadata
  simp only [hc, hm, if_false]
  exact hmd

/-- Witness for C7 (amended): evaluation of the flattening on
`sampleC7` with the flag armed. -/
theorem claim_C7_witness :
    (sampleFlatKeys sampleC7).Nodup ∧
    (flattenSample sampleC7 [] true []).1 = flattenSpecList sampleC7 ∧
    (flattenSample sampleC7 [] true []).2.1 = (true && !hasDroppable sampleC7) ∧
    (flattenSample sampleC7 [] true []).2.2.length =
      List.length ([] : List String) +
        (if true && hasDroppable sampleC7 then 1 else 0) :=
  ⟨by decide, (claim_C7 sampleC7 true [] (by decide)).1,
    (claim_C7 sampleC7 true [] (by decide)).2.1,
    (claim_C7 sampleC7 true [] (by decide)).2.2.1⟩

/-- Counterexample to C7 as stated: `cosmos_folder` holds a string, yet
`get_metadata` does not pass it through (the pair is excluded), and the
drop emits no warning at all. -/
theorem claim_C7_counterexample :
    mdLookup (get_metadata cfg0 orc0
        [("source_parameters", [("cosmos_folder", Value.vStr "/data/COSMOS")])]
        true []).1 "source_parameters_cosmos_folder" = none ∧
    (get_metadata cfg0 orc0
        [("source_parameters", [("cosmos_folder", Value.vStr "/data/COSMOS")])]
        true []).2.2 = [] := by
  constructor <;> rfl

@[simp] theorem exbind_ok {ε α β : Type} (a : α) (f : α → Except ε β) :
    (Except.ok a >>= f : Except ε β) = f a := rfl

@[simp] theorem exbind_err {ε α β : Type} (e : ε) (f : α → Except ε β) :
    (Except.error e >>= f : Except ε β) = Except.error e := rfl

theorem npGet_err {α : Type} {xs : List α} {i : Nat} {e : PErr}
    (h : npGet xs i = Except.error e) : e = PErr.indexError := by
  unfold npGet at h
  cases hx : xs[i]? <;> rw [hx] at h <;> simp_all

theorem npGet_ok_of_lt {α : Type} {xs : List α} {i : Nat} (h : i < xs.length) :
    ∃ v, npGet xs i = Except.ok v ∧ xs.getD i v = v := by
  unfold npGet
  cases hx : xs[i]? with
  | none =>
    rw [List.getElem?_eq_none_iff] at hx
    omega
  | some v =>
    refine ⟨v, rfl, ?_⟩
    simp [List.getD_eq_getElem?_getD, hx]

theorem npBroadcast_err {op : Rat → Rat → Rat} {a b : List Rat} {e : PErr}
    (h : npBroadcast op a b = Except.error e) : e = PErr.valueError := by
  unfold npBroadcast at h
  split at h
  · simp_all
  · split at h
    · simp_all
    · split at h <;> simp_all

theorem psMags_err {inp : PsInputs} {e : PErr}
    (h : psMags inp = Except.error e) : e = PErr.valueError := by
  unfold psMags at h
  cases hm : inp.mag_pert <;> rw [hm] at h
  · simp_all
  · exact npBroadcast_err h

theorem checkMagCut_eq_error_iff (cut? : Option Rat) (mags : List Rat) (e : PErr) :
    checkMagCut cut? mags = Except.error e ↔
      (e = PErr.failedCriteria ∧ ∃ cut, cut? = some cut ∧
        listMean (mags.map (fun m => |m|)) < cut) := by
  cases cut? with
  | none => simp [checkMagCut]
  | some cut =>
    by_cases hlt : listMean (mags.map (fun m => |m|)) < cut
    · simp [checkMagCut, hlt, eq_comm]
    · simp only [checkMagCut, if_neg hlt]
      constructor
      · intro h; exact Except.noConfusion h
      · rintro ⟨he, cut', hc, hlt'⟩
        injection hc with hc'
        subst hc'
        exact absurd hlt' hlt

theorem computeTd_err {inp : PsInputs} {metadata : Md} {e : PErr}
    (h : computeTd inp metadata = Except.error e) : e ≠ PErr.failedCriteria := by
  intro he
  subst he
  unfold computeTd at h
  split at h
  · cases hk : inp.kappa_ext <;> simp only [hk] at h
    · exact PErr.noConfusion (Except.error.inj h)
    · cases hte : inp.time_delay_errors <;> simp only [hte] at h
      · simp only [exbind_ok] at h
        cases hg : npGet inp.arrival_times 0 <;> simp only [hg, exbind_err, exbind_ok] at h
        · exact PErr.noConfusion ((Except.error.inj h) ▸ npGet_err hg)
        · exact Except.noConfusion h
      · rename_i errs
        cases hb : npBroadcast (· + ·) inp.arrival_times
            (errs.take (inp.arrival_times.length - 1)) <;>
          simp only [hb, exbind_err, exbind_ok] at h
        · exact PErr.noConfusion ((Except.error.inj h) ▸ npBroadcast_err hb)
        · rename_i td
          cases hg : npGet td 0 <;> simp only [hg, exbind_err, exbind_ok] at h
          · exact PErr.noConfusion ((Except.error.inj h) ▸ npGet_err hg)
          · exact Except.noConfusion h
  · exact Except.noConfusion h

theorem stepSlot_err {inp : PsInputs} {td? : Option (List Rat)} {mags : List Rat}
    {n i : Nat} {md : Md} {e : PErr}
    (h : stepSlot inp td? mags n i md = Except.error e) : e = PErr.indexError := by
  unfold stepSlot at h
  by_cases hi : i < n
  · rw [if_pos hi] at h
    cases hx : npGet inp.x_image i <;> simp only [hx, exbind_err, exbind_ok] at h
    · exact (Except.error.inj h).symm ▸ npGet_err hx
    · cases hy : npGet inp.y_image i <;> simp only [hy, exbind_err, exbind_ok] at h
      · exact (Except.error.inj h).symm ▸ npGet_err hy
      · cases hm : npGet mags i <;> simp only [hm, exbind_err, exbind_ok] at h
        · exact (Except.error.inj h).symm ▸ npGet_err hm
        · cases hp : inp.mag_pert <;> simp only [hp, exbind_err, exbind_ok] at h
          · exact Except.noConfusion h
          · rename_i mp
            cases hq : npGet mp i <;> simp only [hq, exbind_err, exbind_ok] at h
            · exact (Except.error.inj h).symm ▸ npGet_err hq
            · exact Except.noConfusion h
  · rw [if_neg hi] at h
    cases hp : inp.mag_pert <;> simp only [hp, exbind_err, exbind_ok] at h
    · exact Except.noConfusion h
    · exact Except.noConfusion h

theorem writeSlots_err (inp : PsInputs) (td? : Option (List Rat)) (mags : List Rat)
    (n : Nat) : ∀ (idxs : List Nat) (md : Md) (e : PErr),
    writeSlots inp td? mags n idxs md = Except.error e → e = PErr.indexError := by
  intro idxs
  induction idxs with
  | nil => intro md e h; simp [writeSlots] at h
  | cons i rest ih =>
    intro md e h
    simp only [writeSlots] at h
    cases hs : stepSlot inp td? mags n i md <;> simp only [hs, exbind_err, exbind_ok] at h
    · exact (Except.error.inj h).symm ▸ stepSlot_err hs
    · exact ih _ e h

theorem strHasPre_self (pre s : String) : strHasPre pre (pre ++ s) = true := by
  unfold strHasPre
  rw [String.data_append, List.isPrefixOf_iff_prefix]
  exact List.prefix_append _ _

theorem prefix_append_cases {α : Type} {pre base s : List α} (h : pre <+: base ++ s) :
    pre <+: base ∨ base <+: pre := by
  by_cases hl : pre.length ≤ base.length
  · exact Or.inl (List.prefix_of_prefix_length_le h (List.prefix_append base s) hl)
  · exact Or.inr (List.prefix_of_prefix_length_le (List.prefix_append base s) h (by omega))

theorem strHasPre_append_false {pre base : String}
    (h1 : ¬ pre.data <+: base.data) (h2 : ¬ base.data <+: pre.data) (s : String) :
    strHasPre pre (base ++ s) = false := by
  have : ¬ strHasPre pre (base ++ s) = true := by
    intro hc
    unfold strHasPre at hc
    rw [String.data_append, List.isPrefixOf_iff_prefix] at hc
    rcases prefix_append_cases hc with h | h
    · exact h1 h
    · exact h2 h
  simpa using this

theorem string_append_ne {a b : String} (s : String) (h : a.data ≠ b.data) :
    a ++ s ≠ b ++ s := by
  intro hc
  apply h
  have hd := congrArg String.data hc
  rw [String.data_append, String.data_append] at hd
  have hlen : a.data.length = b.data.length := by
    have := congrArg List.length hd
    simp only [List.length_append] at this
    omega
  exact (List.append_inj hd hlen).1

theorem preKeys_mdSet_not_pre (md : Md) (k : String) (v : Value) (pre : String)
    (h : strHasPre pre k = false) :
    preKeys (mdSet md k v) pre = preKeys md pre := by
  unfold preKeys
  rw [mdKeys_mdSet]
  split
  · rfl
  · rw [List.filter_append]
    simp [h]

theorem preKeys_mdSet_pre (md : Md) (k : String) (v : Value) (pre : String)
    (hpre : strHasPre pre k = true) (hfresh : k ∉ mdKeys md) :
    preKeys (mdSet md k v) pre = preKeys md pre ++ [k] := by
  unfold preKeys
  rw [mdKeys_mdSet, if_neg hfresh, List.filter_append]
  simp [hpre]

theorem mem_preKeys (md : Md) (pre k : String) (hk : k ∈ mdKeys md)
    (hpre : strHasPre pre k = true) : k ∈ preKeys md pre :=
  List.mem_filter.mpr ⟨hk, hpre⟩

theorem mdLookup_some_of_mem_pre {md : Md} {k : String}
    (h : ∃ v, mdLookup md k = some v) : k ∈ mdKeys md := by
  obtain ⟨v, hv⟩ := h
  by_contra hm
  rw [mdLookup_eq_none_of_not_mem md k hm] at hv
  exact Option.noConfusion hv

theorem kxK_eq (i : Nat) : kxK i = preX ++ toString i := rfl

theorem kyK_eq (i : Nat) : kyK i = preY ++ toString i := rfl

theorem kmK_eq (i : Nat) : kmK i = preM ++ toString i := rfl

theorem kpK_eq (i : Nat) : kpK i = preP ++ toString i := rfl

theorem ktK_eq (i : Nat) : ktK i = preT ++ toString i := rfl

theorem kxK_ne_kyK (i : Nat) : kxK i ≠ kyK i := by
  rw [kxK_eq, kyK_eq]; exact string_append_ne _ (by decide)

theorem kxK_ne_kmK (i : Nat) : kxK i ≠ kmK i := by
  rw [kxK_eq, kmK_eq]; exact string_append_ne _ (by decide)

theorem kxK_ne_kpK (i : Nat) : kxK i ≠ kpK i := by
  rw [kxK_eq, kpK_eq]; exact string_append_ne _ (by decide)

theorem kxK_ne_ktK (i : Nat) : kxK i ≠ ktK i := by
  rw [kxK_eq, ktK_eq]; exact string_append_ne _ (by decide)

theorem kyK_ne_kmK (i : Nat) : kyK i ≠ kmK i := by
  rw [kyK_eq, kmK_eq]; exact string_append_ne _ (by decide)

theorem kyK_ne_kpK (i : Nat) : kyK i ≠ kpK i := by
  rw [kyK_eq, kpK_eq]; exact string_append_ne _ (by decide)

theorem kyK_ne_ktK (i : Nat) : kyK i ≠ ktK i := by
  rw [kyK_eq, ktK_eq]; exact string_append_ne _ (by decide)

theorem kmK_ne_kpK (i : Nat) : kmK i ≠ kpK i := by
  rw [kmK_eq, kpK_eq]; exact string_append_ne _ (by decide)

theorem kmK_ne_ktK (i : Nat) : kmK i ≠ ktK i := by
  rw [kmK_eq, ktK_eq]; exact string_append_ne _ (by decide)

theorem strHasPre_preX_kx (i : Nat) : strHasPre preX (kxK i) = true := by
  rw [kxK_eq]; exact strHasPre_self _ _

theorem strHasPre_preY_ky (i : Nat) : strHasPre preY (kyK i) = true := by
  rw [kyK_eq]; exact strHasPre_self _ _

theorem strHasPre_preM_km (i : Nat) : strHasPre preM (kmK i) = true := by
  rw [kmK_eq]; exact strHasPre_self _ _

theorem strHasPre_preX_ky (i : Nat) : strHasPre preX (kyK i) = false := by
  rw [kyK_eq]; exact strHasPre_append_false (by decide) (by decide) _

theorem strHasPre_preX_km (i : Nat) : strHasPre preX (kmK i) = false := by
  rw [kmK_eq]; exact strHasPre_append_false (by decide) (by decide) _

theorem strHasPre_preX_kp (i : Nat) : strHasPre preX (kpK i) = false := by
  rw [kpK_eq]; exact strHasPre_append_false (by decide) (by decide) _

theorem strHasPre_preX_kt (i : Nat) : strHasPre preX (ktK i) = false := by
  rw [ktK_eq]; exact strHasPre_append_false (by decide) (by decide) _

theorem strHasPre_preY_kx (i : Nat) : strHasPre preY (kxK i) = false := by
  rw [kxK_eq]; exact strHasPre_append_false (by decide) (by decide) _

theorem strHasPre_preY_km (i : Nat) : strHasPre preY (kmK i) = false := by
  rw [kmK_eq]; exact strHasPre_append_false (by decide) (by decide) _

theorem strHasPre_preY_kp (i : Nat) : strHasPre preY (kpK i) = false := by
  rw [kpK_eq]; exact strHasPre_append_false (by decide) (by decide) _

theorem strHasPre_preY_kt (i : Nat) : strHasPre preY (ktK i) = false := by
  rw [ktK_eq]; exact strHasPre_append_false (by decide) (by decide) _

theorem strHasPre_preM_kx (i : Nat) : strHasPre preM (kxK i) = false := by
  rw [kxK_eq]; exact strHasPre_append_false (by decide) (by decide) _

theorem strHasPre_preM_ky (i : Nat) : strHasPre preM (kyK i) = false := by
  rw [kyK_eq]; exact strHasPre_append_false (by decide) (by decide) _

theorem strHasPre_preM_kp (i : Nat) : strHasPre preM (kpK i) = false := by
  rw [kpK_eq]; exact strHasPre_append_false (by decide) (by decide) _

theorem strHasPre_preM_kt (i : Nat) : strHasPre preM (ktK i) = false := by
  rw [ktK_eq]; exact strHasPre_append_false (by decide) (by decide) _

/-- Inversion of one successful slot iteration: the record is the chain of
x / y / magnification writes, optionally followed by a mag_pert write and
a time_delay write, with NaN values when the index is at or beyond the
image count. -/
theorem stepSlot_ok_form {inp : PsInputs} {td? : Option (List Rat)} {mags : List Rat}
    {n i : Nat} {md md' : Md} (h : stepSlot inp td? mags n i md = Except.ok md') :
    ∃ (vx vy vm : Value) (mdq : Md),
      (mdq = mdSet (mdSet (mdSet md (kxK i) vx) (kyK i) vy) (kmK i) vm ∨
        ∃ vp, mdq = mdSet (mdSet (mdSet (mdSet md (kxK i) vx) (kyK i) vy) (kmK i) vm)
          (kpK i) vp) ∧
      (md' = mdq ∨ ∃ vt, md' = mdSet mdq (ktK i) vt) ∧
      (n ≤ i → vx = Value.vFloat PFloat.nan ∧ vy = Value.vFloat PFloat.nan ∧
        vm = Value.vFloat PFloat.nan) := by
  unfold stepSlot at h
  by_cases hi : i < n
  · rw [if_pos hi] at h
    cases hx : npGet inp.x_image i <;> simp only [hx, exbind_err, exbind_ok] at h
    · exact Except.noConfusion h
    · cases hy : npGet inp.y_image i <;> simp only [hy, exbind_err, exbind_ok] at h
      · exact Except.noConfusion h
      · cases hm : npGet mags i <;> simp only [hm, exbind_err, exbind_ok] at h
        · exact Except.noConfusion h
        · rename_i xi yi mi
          cases hp : inp.mag_pert <;> simp only [hp, exbind_err, exbind_ok] at h
          · cases htd : td? <;> simp only [htd, exbind_err, exbind_ok] at h
            · refine ⟨.vFloat (.num xi), .vFloat (.num yi), .vFloat (.num mi), _,
                Or.inl rfl, Or.inl (Except.ok.inj h).symm, fun hni => absurd hi (by omega)⟩
            · rename_i tdl
              refine ⟨.vFloat (.num xi), .vFloat (.num yi), .vFloat (.num mi), _,
                Or.inl rfl, Or.inr ⟨if i < tdl.length then .vFloat (.num (tdl.getD i 0))
                  else .vFloat .nan, ?_⟩, fun hni => absurd hi (by omega)⟩
              rw [← Except.ok.inj h]
              by_cases hc : i < tdl.length
              · rw [if_pos hc, if_pos hc]
                rfl
              · rw [if_neg hc, if_neg hc]
                rfl
          · rename_i mp
            cases hq : npGet mp i <;> simp only [hq, exbind_err, exbind_ok] at h
            · exact Except.noConfusion h
            · rename_i pv
              cases htd : td? <;> simp only [htd, exbind_err, exbind_ok] at h
              · refine ⟨.vFloat (.num xi), .vFloat (.num yi), .vFloat (.num mi), _,
                  Or.inr ⟨_, rfl⟩, Or.inl (Except.ok.inj h).symm,
                  fun hni => absurd hi (by omega)⟩
              · rename_i tdl
                refine ⟨.vFloat (.num xi), .vFloat (.num yi), .vFloat (.num mi), _,
                  Or.inr ⟨.vFloat (.num pv), rfl⟩, Or.inr ⟨if i < tdl.length then
                    .vFloat (.num (tdl.getD i 0)) else .vFloat .nan, ?_⟩,
                  fun hni => absurd hi (by omega)⟩
                rw [← Except.ok.inj h]
                by_cases hc : i < tdl.length
                · rw [if_pos hc, if_pos hc]
                  rfl
                · rw [if_neg hc, if_neg hc]
                  rfl
  · rw [if_neg hi] at h
    cases hp : inp.mag_pert <;> simp only [hp, exbind_err, exbind_ok] at h
    · cases htd : td? <;> simp only [htd, exbind_err, exbind_ok] at h
      · exact ⟨.vFloat .nan, .vFloat .nan, .vFloat .nan, _,
          Or.inl rfl, Or.inl (Except.ok.inj h).symm, fun _ => ⟨rfl, rfl, rfl⟩⟩
      · rename_i tdl
        refine ⟨.vFloat .nan, .vFloat .nan, .vFloat .nan, _,
          Or.inl rfl, Or.inr ⟨if i < tdl.length then .vFloat (.num (tdl.getD i 0))
            else .vFloat .nan, ?_⟩, fun _ => ⟨rfl, rfl, rfl⟩⟩
        rw [← Except.ok.inj h]
        by_cases hc : i < tdl.length
        · rw [if_pos hc, if_pos hc]
          rfl
        · rw [if_neg hc, if_neg hc]
          rfl
    · cases htd : td? <;> simp only [htd, exbind_err, exbind_ok] at h
      · exact ⟨.vFloat .nan, .vFloat .nan, .vFloat .nan, _,
          Or.inr ⟨_, rfl⟩, Or.inl (Except.ok.inj h).symm, fun _ => ⟨rfl, rfl, rfl⟩⟩
      · rename_i tdl
        refine ⟨.vFloat .nan, .vFloat .nan, .vFloat .nan, _,
          Or.inr ⟨.vFloat .nan, rfl⟩, Or.inr ⟨if i < tdl.length then
            .vFloat (.num (tdl.getD i 0)) else .vFloat .nan, ?_⟩,
          fun _ => ⟨rfl, rfl, rfl⟩⟩
        rw [← Except.ok.inj h]
        by_cases hc : i < tdl.length
        · rw [if_pos hc, if_pos hc]
          rfl
        · rw [if_neg hc, if_neg hc]
          rfl

theorem stepSlot_lookup {inp : PsInputs} {td? : Option (List Rat)} {mags : List Rat}
    {n i : Nat} {md md' : Md} (h : stepSlot inp td? mags n i md = Except.ok md') :
    (∃ v, mdLookup md' (kxK i) = some v ∧ (n ≤ i → v = Value.vFloat PFloat.nan)) ∧
    (∃ v, mdLookup md' (kyK i) = some v ∧ (n ≤ i → v = Value.vFloat PFloat.nan)) ∧
    (∃ v, mdLookup md' (kmK i) = some v ∧ (n ≤ i → v = Value.vFloat PFloat.nan)) := by
  obtain ⟨vx, vy, vm, mdq, hq, hmd, hnan⟩ := stepSlot_ok_form h
  have hqx : mdLookup mdq (kxK i) = some vx := by
    rcases hq with rfl | ⟨vp, rfl⟩ <;>
      simp [mdLookup_mdSet, kxK_ne_kyK i, kxK_ne_kmK i, kxK_ne_kpK i]
  have hqy : mdLookup mdq (kyK i) = some vy := by
    rcases hq with rfl | ⟨vp, rfl⟩ <;>
      simp [mdLookup_mdSet, kyK_ne_kmK i, kyK_ne_kpK i]
  have hqm : mdLookup mdq (kmK i) = some vm := by
    rcases hq with rfl | ⟨vp, rfl⟩ <;>
      simp [mdLookup_mdSet, kmK_ne_kpK i]
  rcases hmd with rfl | ⟨vt, rfl⟩
  · exact ⟨⟨vx, hqx, fun hni => (hnan hni).1⟩, ⟨vy, hqy, fun hni => (hnan hni).2.1⟩,
      ⟨vm, hqm, fun hni => (hnan hni).2.2⟩⟩
  · refine ⟨⟨vx, ?_, fun hni => (hnan hni).1⟩, ⟨vy, ?_, fun hni => (hnan hni).2.1⟩,
      ⟨vm, ?_, fun hni => (hnan hni).2.2⟩⟩ <;>
      simp [mdLookup_mdSet, kxK_ne_ktK i, kyK_ne_ktK i, kmK_ne_ktK i, hqx, hqy, hqm]

theorem stepSlot_frame {inp : PsInputs} {td? : Option (List Rat)} {mags : List Rat}
    {n i : Nat} {md md' : Md} (h : stepSlot inp td? mags n i md = Except.ok md')
    (k : String) (h1 : k ≠ kxK i) (h2 : k ≠ kyK i) (h3 : k ≠ kmK i)
    (h4 : k ≠ kpK i) (h5 : k ≠ ktK i) : mdLookup md' k = mdLookup md k := by
  obtain ⟨vx, vy, vm, mdq, hq, hmd, _⟩ := stepSlot_ok_form h
  have hqk : mdLookup mdq k = mdLookup md k := by
    rcases hq with rfl | ⟨vp, rfl⟩ <;> simp [mdLookup_mdSet, h1, h2, h3, h4]
  rcases hmd with rfl | ⟨vt, rfl⟩
  · exact hqk
  · simp [mdLookup_mdSet, h5, hqk]

/-- The preX-keys after one slot iteration: exactly the old ones plus the
slot's x key, provided that key is new. -/
theorem stepSlot_preKeys_x {inp : PsInputs} {td? : Option (List Rat)} {mags : List Rat}
    {n i : Nat} {md md' : Md} (h : stepSlot inp td? mags n i md = Except.ok md')
    (hfresh : kxK i ∉ mdKeys md) :
    preKeys md' preX = preKeys md preX ++ [kxK i] := by
  obtain ⟨vx, vy, vm, mdq, hq, hmd, _⟩ := stepSlot_ok_form h
  have hqk : preKeys mdq preX = preKeys md preX ++ [kxK i] := by
    rcases hq with rfl | ⟨vp, rfl⟩
    · rw [preKeys_mdSet_not_pre _ _ _ _ (strHasPre_preX_km i),
        preKeys_mdSet_not_pre _ _ _ _ (strHasPre_preX_ky i),
        preKeys_mdSet_pre md (kxK i) vx preX (strHasPre_preX_kx i) hfresh]
    · rw [preKeys_mdSet_not_pre _ _ _ _ (strHasPre_preX_kp i),
        preKeys_mdSet_not_pre _ _ _ _ (strHasPre_preX_km i),
        preKeys_mdSet_not_pre _ _ _ _ (strHasPre_preX_ky i),
        preKeys_mdSet_pre md (kxK i) vx preX (strHasPre_preX_kx i) hfresh]
  rcases hmd with rfl | ⟨vt, rfl⟩
  · exact hqk
  · rw [preKeys_mdSet_not_pre _ _ _ _ (strHasPre_preX_kt i)]
    exact hqk

theorem stepSlot_preKeys_y {inp : PsInputs} {td? : Option (List Rat)} {mags : List Rat}
    {n i : Nat} {md md' : Md} (h : stepSlot inp td? mags n i md = Except.ok md')
    (hfresh : kyK i ∉ mdKeys md) :
    preKeys md' preY = preKeys md preY ++ [kyK i] := by
  obtain ⟨vx, vy, vm, mdq, hq, hmd, _⟩ := stepSlot_ok_form h
  have hfresh1 : kyK i ∉ mdKeys (mdSet md (kxK i) vx) := by
    intro hmem
    rcases mem_mdKeys_mdSet _ _ _ _ hmem with hmem | hmem
    · exact hfresh hmem
    · exact (kxK_ne_kyK i) hmem.symm
  have hqk : preKeys mdq preY = preKeys md preY ++ [kyK i] := by
    rcases hq with rfl | ⟨vp, rfl⟩
    · rw [preKeys_mdSet_not_pre _ _ _ _ (strHasPre_preY_km i),
        preKeys_mdSet_pre _ (kyK i) vy preY (strHasPre_preY_ky i) hfresh1,
        preKeys_mdSet_not_pre _ _ _ _ (strHasPre_preY_kx i)]
    · rw [preKeys_mdSet_not_pre _ _ _ _ (strHasPre_preY_kp i),
        preKeys_mdSet_not_pre _ _ _ _ (strHasPre_preY_km i),
        preKeys_mdSet_pre _ (kyK i) vy preY (strHasPre_preY_ky i) hfresh1,
        preKeys_mdSet_not_pre _ _ _ _ (strHasPre_preY_kx i)]
  rcases hmd with rfl | ⟨vt, rfl⟩
  · exact hqk
  · rw [preKeys_mdSet_not_pre _ _ _ _ (strHasPre_preY_kt i)]
    exact hqk

theorem stepSlot_preKeys_m {inp : PsInputs} {td? : Option (List Rat)} {mags : List Rat}
    {n i : Nat} {md md' : Md} (h : stepSlot inp td? mags n i md = Except.ok md')
    (hfresh : kmK i ∉ mdKeys md) :
    preKeys md' preM = preKeys md preM ++ [kmK i] := by
  obtain ⟨vx, vy, vm, mdq, hq, hmd, _⟩ := stepSlot_ok_form h
  have hfresh2 : kmK i ∉ mdKeys (mdSet (mdSet md (kxK i) vx) (kyK i) vy) := by
    intro hmem
    rcases mem_mdKeys_mdSet _ _ _ _ hmem with hmem | hmem
    · rcases mem_mdKeys_mdSet _ _ _ _ hmem with hmem | hmem
      · exact hfresh hmem
      · exact (kxK_ne_kmK i) hmem.symm
    · exact (kyK_ne_kmK i) hmem.symm
  have hqk : preKeys mdq preM = preKeys md preM ++ [kmK i] := by
    rcases hq with rfl | ⟨vp, rfl⟩
    · rw [preKeys_mdSet_pre _ (kmK i) vm preM (strHasPre_preM_km i) hfresh2,
        preKeys_mdSet_not_pre _ _ _ _ (strHasPre_preM_ky i),
        preKeys_mdSet_not_pre _ _ _ _ (strHasPre_preM_kx i)]
    · rw [preKeys_mdSet_not_pre _ _ _ _ (strHasPre_preM_kp i),
        preKeys_mdSet_pre _ (kmK i) vm preM (strHasPre_preM_km i) hfresh2,
        preKeys_mdSet_not_pre _ _ _ _ (strHasPre_preM_ky i),
        preKeys_mdSet_not_pre _ _ _ _ (strHasPre_preM_kx i)]
  rcases hmd with rfl | ⟨vt, rfl⟩
  · exact hqk
  · rw [preKeys_mdSet_not_pre _ _ _ _ (strHasPre_preM_kt i)]
    exact hqk

theorem writeSlots_cons_ok {inp : PsInputs} {td? : Option (List Rat)} {mags : List Rat}
    {n i : Nat} {rest : List Nat} {md out : Md}
    (h : writeSlots inp td? mags n (i :: rest) md = Except.ok out) :
    ∃ md', stepSlot inp td? mags n i md = Except.ok md' ∧
      writeSlots inp td? mags n rest md' = Except.ok out := by
  simp only [writeSlots] at h
  cases hs : stepSlot inp td? mags n i md <;> simp only [hs, exbind_err, exbind_ok] at h
  · exact Except.noConfusion h
  · exact ⟨_, rfl, h⟩

theorem writeSlots_nil_ok {inp : PsInputs} {td? : Option (List Rat)} {mags : List Rat}
    {n : Nat} {md out : Md} (h : writeSlots inp td? mags n [] md = Except.ok out) :
    out = md := (Except.ok.inj h).symm

/-- The record returned by the time-delay block: the input record, with
the `ddt` key added when time delays were computed. -/
theorem computeTd_md {inp : PsInputs} {m : Md} {tdmd : Option (List Rat) × Md}
    (h : computeTd inp m = Except.ok tdmd) :
    tdmd.2 = m ∨ tdmd.2 = mdSet m (pfix ++ "ddt") (.vFloat (.num inp.ddt_val)) := by
  unfold computeTd at h
  split at h
  · cases hk : inp.kappa_ext <;> simp only [hk] at h
    · exact Except.noConfusion h
    · cases hte : inp.time_delay_errors <;> simp only [hte, exbind_ok, exbind_err] at h
      · cases hg : npGet inp.arrival_times 0 <;>
          simp only [hg, exbind_err, exbind_ok] at h
        · exact Except.noConfusion h
        · exact Or.inr (by rw [← Except.ok.inj h])
      · rename_i errs
        cases hb : npBroadcast (· + ·) inp.arrival_times
            (errs.take (inp.arrival_times.length - 1)) <;>
          simp only [hb, exbind_err, exbind_ok] at h
        · exact Except.noConfusion h
        · rename_i td
          cases hg : npGet td 0 <;> simp only [hg, exbind_err, exbind_ok] at h
          · exact Except.noConfusion h
          · exact Or.inr (by rw [← Except.ok.inj h])
  · exact Or.inl (by rw [← Except.ok.inj h])

theorem checkMagCut_ok {cut : Rat} {mags : List Rat} {u : Unit}
    (h : checkMagCut (some cut) mags = Except.ok u) :
    ¬ listMean (mags.map (fun m => |m|)) < cut := by
  intro hlt
  simp [checkMagCut, hlt] at h

/-- Inversion of a successful `_calculate_ps_metadata` run: the return
code is 0, the image count passed both bounds, and the slot loop ran on
the base metadata with the computed magnifications and time delays. -/
theorem calculate_ps_metadata_ok_inv (cfg : HandlerConfig) (inp : PsInputs) (md : Md)
    (r : Md × Int) (h : calculate_ps_metadata cfg inp md = Except.ok r) :
    r.2 = 0 ∧ 2 ≤ inp.x_image.length ∧ inp.x_image.length ≤ 5 ∧
    ∃ mags tdmd, psMags inp = Except.ok mags ∧
      computeTd inp (psHeadMd inp md) = Except.ok tdmd ∧
      writeSlots inp tdmd.1 mags inp.x_image.length (List.range 4) tdmd.2 =
        Except.ok r.1 := by
  unfold calculate_ps_metadata at h
  simp only at h
  rw [show mdSet (mdSet md (pfix ++ "num_images") (Value.vInt (inp.x_image.length : Int)))
      (pfix ++ "lens_ps_offset")
      (Value.vFloat (PFloat.sqrtOf ((inp.ra_source - inp.center_x) ^ 2 +
        (inp.dec_source - inp.center_y) ^ 2))) = psHeadMd inp md from rfl] at h
  split at h
  · exact Except.noConfusion h
  · split at h
    · exact Except.noConfusion h
    · split at h
      · exact Except.noConfusion h
      · split at h
        · exact Except.noConfusion h
        · rename_i h1 h2 h3 h4
          cases hm : psMags inp <;> simp only [hm, exbind_err, exbind_ok] at h
          · exact Except.noConfusion h
          · rename_i mags
            cases hc : checkMagCut cfg.ps_magnification_cut mags <;>
              simp only [hc, exbind_err, exbind_ok] at h
            · exact Except.noConfusion h
            · cases ht : computeTd inp (psHeadMd inp md) <;>
                simp only [ht, exbind_err, exbind_ok] at h
              · exact Except.noConfusion h
              · rename_i tdmd
                cases hw : writeSlots inp tdmd.1 mags inp.x_image.length (List.range 4)
                    tdmd.2 <;> simp only [hw, exbind_err, exbind_ok] at h
                · exact Except.noConfusion h
                · rename_i md'
                  have hr : r = (md', 0) := (Except.ok.inj h).symm
                  subst hr
                  exact ⟨rfl, by omega, by omega, mags, tdmd, rfl, rfl, hw⟩

theorem not_psFailCondition (cfg : HandlerConfig) (inp : PsInputs)
    (h1 : ¬ inp.x_image.length > 5) (h2 : ¬ inp.x_image.length < 2)
    (h3 : ¬ (cfg.doubles_quads_only = true ∧ inp.x_image.length ≠ 2 ∧
      inp.x_image.length ≠ 4))
    (h4 : ¬ (cfg.quads_only = true ∧ inp.x_image.length ≠ 4))
    (h5 : ∀ cut mags, cfg.ps_magnification_cut = some cut →
      psMags inp = Except.ok mags → ¬ listMean (mags.map (fun m => |m|)) < cut) :
    ¬ psFailCondition cfg inp := by
  rintro (h | h | h | h | ⟨cut, mags, hcut, hok, hlt⟩)
  · exact h1 h
  · exact h2 h
  · exact h3 h
  · exact h4 h
  · exact h5 cut mags hcut hok hlt

/-- C3: `_calculate_ps_metadata` raises the typed `FailedCriteriaError`
if and only if the computed image count exceeds 5, is below 2, violates a
configured doubles-and-quads-only or quads-only restriction, or a
configured point-source magnification cut exceeds the mean of the
absolute values of the (possibly perturbation-multiplied)
magnifications. -/
theorem claim_C3 (cfg : HandlerConfig) (inp : PsInputs) (md : Md) :
    calculate_ps_metadata cfg inp md = Except.error PErr.failedCriteria ↔
      psFailCondition cfg inp := by
  unfold calculate_ps_metadata
  simp only
  rw [show mdSet (mdSet md (pfix ++ "num_images") (Value.vInt (inp.x_image.length : Int)))
      (pfix ++ "lens_ps_offset")
      (Value.vFloat (PFloat.sqrtOf ((inp.ra_source - inp.center_x) ^ 2 +
        (inp.dec_source - inp.center_y) ^ 2))) = psHeadMd inp md from rfl]
  by_cases h1 : inp.x_image.length > 5
  · rw [if_pos h1]
    exact ⟨fun _ => Or.inl h1, fun _ => rfl⟩
  · rw [if_neg h1]
    by_cases h2 : inp.x_image.length < 2
    · rw [if_pos h2]
      exact ⟨fun _ => Or.inr (Or.inl h2), fun _ => rfl⟩
    · rw [if_neg h2]
      by_cases h3 : cfg.doubles_quads_only = true ∧ inp.x_image.length ≠ 2 ∧
          inp.x_image.length ≠ 4
      · rw [if_pos h3]
        exact ⟨fun _ => Or.inr (Or.inr (Or.inl h3)), fun _ => rfl⟩
      · rw [if_neg h3]
        by_cases h4 : cfg.quads_only = true ∧ inp.x_image.length ≠ 4
        · rw [if_pos h4]
          exact ⟨fun _ => Or.inr (Or.inr (Or.inr (Or.inl h4))), fun _ => rfl⟩
        · rw [if_neg h4]
          cases hm : psMags inp with
          | error e =>
            simp only [hm, exbind_err]
            constructor
            · intro h
              have he := Except.error.inj h
              rw [psMags_err hm] at he
              exact PErr.noConfusion he
            · intro hf
              refine absurd hf (not_psFailCondition cfg inp h1 h2 h3 h4 ?_)
              intro cut mags hcut hok
              rw [hm] at hok
              exact Except.noConfusion hok
          | ok mags =>
            simp only [hm, exbind_ok]
            cases hc : checkMagCut cfg.ps_magnification_cut mags with
            | error e =>
              simp only [hc, exbind_err]
              have hinfo := (checkMagCut_eq_error_iff _ _ _).mp hc
              constructor
              · intro _
                obtain ⟨cut, hcut, hlt⟩ := hinfo.2
                exact Or.inr (Or.inr (Or.inr (Or.inr ⟨cut, mags, hcut, hm, hlt⟩)))
              · intro _
                rw [hinfo.1]
            | ok u =>
              simp only [hc, exbind_ok]
              have h5 : ∀ cut mags', cfg.ps_magnification_cut = some cut →
                  psMags inp = Except.ok mags' →
                  ¬ listMean (mags'.map (fun m => |m|)) < cut := by
                intro cut mags' hcut hok hlt
                rw [hm] at hok
                obtain rfl : mags = mags' := Except.ok.inj hok
                rw [hcut] at hc
                exact checkMagCut_ok hc hlt
              have hnf := not_psFailCondition cfg inp h1 h2 h3 h4 h5
              cases ht : computeTd inp (psHeadMd inp md) with
              | error e =>
                simp only [ht, exbind_err]
                exact ⟨fun h => absurd (Except.error.inj h) (computeTd_err ht),
                  fun hf => absurd hf hnf⟩
              | ok tdmd =>
                simp only [ht, exbind_ok]
                cases hw : writeSlots inp tdmd.1 mags inp.x_image.length (List.range 4)
                    tdmd.2 with
                | error e =>
                  simp only [hw, exbind_err]
                  constructor
                  · intro h
                    have he := Except.error.inj h
                    rw [writeSlots_err inp tdmd.1 mags inp.x_image.length (List.range 4)
                      tdmd.2 e hw] at he
                    exact PErr.noConfusion he
                  · intro hf
                    exact absurd hf hnf
                | ok md' =>
                  simp only [hw, exbind_ok]
                  exact ⟨fun h => Except.noConfusion h, fun hf => absurd hf hnf⟩

/-- C10: whenever `_calculate_ps_metadata` returns normally it returns 0
(all failures are raised, never returned as -1): no successful return
carries the code -1, so the branch of `_draw_image_standard` returning
the sentinel pair on -1 is unreachable; the standard path never returns
the sentinel pair `(None, None)` itself, and indeed every successful
result carries both an actual image and actual metadata. -/
theorem claim_C10 (cfg : HandlerConfig) :
    (∀ (inp : PsInputs) (md : Md) (r : Md × Int),
      calculate_ps_metadata cfg inp md = Except.ok r → r.2 = 0) ∧
    (∀ (inp : PsInputs) (md : Md) (r : Md × Int),
      ¬ (calculate_ps_metadata cfg inp md = Except.ok r ∧ r.2 = -1)) ∧
    (∀ (orc : StdOracles) (sample : Sample) (ser : Bool) (log : List String)
      (an ap : Bool),
      (draw_image_standard cfg orc sample ser log an ap).1 ≠
        Except.ok (none, none)) ∧
    (∀ (orc : StdOracles) (sample : Sample) (ser : Bool) (log : List String)
      (an ap : Bool) (p : Option Image × Option Md),
      (draw_image_standard cfg orc sample ser log an ap).1 = Except.ok p →
      p.1.isSome = true ∧ p.2.isSome = true) := by
  have hzero : ∀ (inp : PsInputs) (md : Md) (r : Md × Int),
      calculate_ps_metadata cfg inp md = Except.ok r → r.2 = 0 := by
    intro inp md r h
    exact (calculate_ps_metadata_ok_inv cfg inp md r h).1
  have hshape : ∀ (orc : StdOracles) (sample : Sample) (ser : Bool)
      (log : List String) (an ap : Bool) (p : Option Image × Option Md),
      (draw_image_standard cfg orc sample ser log an ap).1 = Except.ok p →
      p.1.isSome = true ∧ p.2.isSome = true := by
    intro orc sample ser log an ap p h
    unfold draw_image_standard at h
    simp only at h
    split at h
    · exact Except.noConfusion h
    · split at h
      · cases hc : calculate_ps_metadata cfg orc.psInputs
            (get_metadata cfg orc.derived sample ser log).1 with
        | error e =>
          rw [hc] at h
          cases e <;> exact Except.noConfusion h
        | ok pr =>
          rw [hc] at h
          obtain ⟨md', success⟩ := pr
          have hz : success = 0 := (calculate_ps_metadata_ok_inv _ _ _ _ hc).1
          subst hz
          dsimp only at h
          rw [if_neg (by decide : ¬ ((0 : Int) = -1))] at h
          rw [← Except.ok.inj h]
          exact ⟨rfl, rfl⟩
      · simp only at h
        rw [← Except.ok.inj h]
        exact ⟨rfl, rfl⟩
  refine ⟨hzero, ?_, ?_, hshape⟩
  · rintro inp md r ⟨h, h1⟩
    rw [hzero inp md r h] at h1
    exact absurd h1 (by decide)
  · intro orc sample ser log an ap hne
    rcases hshape orc sample ser log an ap (none, none) hne with ⟨h1, _⟩
    exact Bool.noConfusion h1

/-- C6: whenever `_calculate_ps_metadata` returns successfully, the
record holds exactly four slots (indices 0 through 3) for each of
point-source x image position, y image position and magnification, and
every slot at or beyond the observed image count holds the NaN sentinel
rather than being omitted — regardless of the image multiplicity. -/
theorem claim_C6 (cfg : HandlerConfig) (inp : PsInputs) (md₀ md : Md) (r : Int)
    (h0x : countPrefix md₀ preX = 0) (h0y : countPrefix md₀ preY = 0)
    (h0m : countPrefix md₀ preM = 0)
    (h : calculate_ps_metadata cfg inp md₀ = Except.ok (md, r)) :
    (countPrefix md preX = 4 ∧ countPrefix md preY = 4 ∧ countPrefix md preM = 4) ∧
    (∀ i, i < 4 →
      (∃ v, mdLookup md (preX ++ toString i) = some v ∧
        (inp.x_image.length ≤ i → v = Value.vFloat PFloat.nan)) ∧
      (∃ v, mdLookup md (preY ++ toString i) = some v ∧
        (inp.x_image.length ≤ i → v = Value.vFloat PFloat.nan)) ∧
      (∃ v, mdLookup md (preM ++ toString i) = some v ∧
        (inp.x_image.length ≤ i → v = Value.vFloat PFloat.nan))) := by
  obtain ⟨-, -, -, mags, tdmd, hmag, htd, hws⟩ :=
    calculate_ps_metadata_ok_inv cfg inp md₀ (md, r) h
  rw [show List.range 4 = [0, 1, 2, 3] from by decide] at hws
  obtain ⟨m1, hs0, hws1⟩ := writeSlots_cons_ok hws
  obtain ⟨m2, hs1, hws2⟩ := writeSlots_cons_ok hws1
  obtain ⟨m3, hs2, hws3⟩ := writeSlots_cons_ok hws2
  obtain ⟨m4, hs3, hws4⟩ := writeSlots_cons_ok hws3
  obtain rfl : (md : Md) = _ := writeSlots_nil_ok hws4
  have hbase : ∀ pre, strHasPre pre (pfix ++ "num_images") = false →
      strHasPre pre (pfix ++ "lens_ps_offset") = false →
      strHasPre pre (pfix ++ "ddt") = false →
      countPrefix md₀ pre = 0 → preKeys tdmd.2 pre = [] := by
    intro pre hn hl hd h0
    have h0' : preKeys md₀ pre = [] := List.length_eq_zero.mp h0
    rcases computeTd_md htd with h2 | h2
    · rw [h2]
      unfold psHeadMd
      rw [preKeys_mdSet_not_pre _ _ _ _ hl, preKeys_mdSet_not_pre _ _ _ _ hn]
      exact h0'
    · rw [h2, preKeys_mdSet_not_pre _ _ _ _ hd]
      unfold psHeadMd
      rw [preKeys_mdSet_not_pre _ _ _ _ hl, preKeys_mdSet_not_pre _ _ _ _ hn]
      exact h0'
  -- exact slot-key lists for the three families
  have hX0 : preKeys tdmd.2 preX = [] := hbase preX (by decide) (by decide) (by decide) h0x
  have hY0 : preKeys tdmd.2 preY = [] := hbase preY (by decide) (by decide) (by decide) h0y
  have hM0 : preKeys tdmd.2 preM = [] := hbase preM (by decide) (by decide) (by decide) h0m
  have hX1 : preKeys m1 preX = [kxK 0] := by
    rw [stepSlot_preKeys_x hs0 (fun hmem => by
      have := mem_preKeys _ preX _ hmem (strHasPre_preX_kx 0)
      rw [hX0] at this
      exact absurd this (List.not_mem_nil _)), hX0]
    rfl
  have hX2 : preKeys m2 preX = [kxK 0, kxK 1] := by
    rw [stepSlot_preKeys_x hs1 (fun hmem => by
      have := mem_preKeys _ preX _ hmem (strHasPre_preX_kx 1)
      rw [hX1] at this
      revert this
      decide), hX1]
    rfl
  have hX3 : preKeys m3 preX = [kxK 0, kxK 1, kxK 2] := by
    rw [stepSlot_preKeys_x hs2 (fun hmem => by
      have := mem_preKeys _ preX _ hmem (strHasPre_preX_kx 2)
      rw [hX2] at this
      revert this
      decide), hX2]
    rfl
  have hX4 : preKeys md preX = [kxK 0, kxK 1, kxK 2, kxK 3] := by
    rw [stepSlot_preKeys_x hs3 (fun hmem => by
      have := mem_preKeys _ preX _ hmem (strHasPre_preX_kx 3)
      rw [hX3] at this
      revert this
      decide), hX3]
    rfl
  have hY1 : preKeys m1 preY = [kyK 0] := by
    rw [stepSlot_preKeys_y hs0 (fun hmem => by
      have := mem_preKeys _ preY _ hmem (strHasPre_preY_ky 0)
      rw [hY0] at this
      exact absurd this (List.not_mem_nil _)), hY0]
    rfl
  have hY2 : preKeys m2 preY = [kyK 0, kyK 1] := by
    rw [stepSlot_preKeys_y hs1 (fun hmem => by
      have := mem_preKeys _ preY _ hmem (strHasPre_preY_ky 1)
      rw [hY1] at this
      revert this
      decide), hY1]
    rfl
  have hY3 : preKeys m3 preY = [kyK 0, kyK 1, kyK 2] := by
    rw [stepSlot_preKeys_y hs2 (fun hmem => by
      have := mem_preKeys _ preY _ hmem (strHasPre_preY_ky 2)
      rw [hY2] at this
      revert this
      decide), hY2]
    rfl
  have hY4 : preKeys md preY = [kyK 0, kyK 1, kyK 2, kyK 3] := by
    rw [stepSlot_preKeys_y hs3 (fun hmem => by
      have := mem_preKeys _ preY _ hmem (strHasPre_preY_ky 3)
      rw [hY3] at this
      revert this
      decide), hY3]
    rfl
  have hM1 : preKeys m1 preM = [kmK 0] := by
    rw [stepSlot_preKeys_m hs0 (fun hmem => by
      have := mem_preKeys _ preM _ hmem (strHasPre_preM_km 0)
      rw [hM0] at this
      exact absurd this (List.not_mem_nil _)), hM0]
    rfl
  have hM2 : preKeys m2 preM = [kmK 0, kmK 1] := by
    rw [stepSlot_preKeys_m hs1 (fun hmem => by
      have := mem_preKeys _ preM _ hmem (strHasPre_preM_km 1)
      rw [hM1] at this
      revert this
      decide), hM1]
    rfl
  have hM3 : preKeys m3 preM = [kmK 0, kmK 1, kmK 2] := by
    rw [stepSlot_preKeys_m hs2 (fun hmem => by
      have := mem_preKeys _ preM _ hmem (strHasPre_preM_km 2)
      rw [hM2] at this
      revert this
      decide), hM2]
    rfl
  have hM4 : preKeys md preM = [kmK 0, kmK 1, kmK 2, kmK 3] := by
    rw [stepSlot_preKeys_m hs3 (fun hmem => by
      have := mem_preKeys _ preM _ hmem (strHasPre_preM_km 3)
      rw [hM3] at this
      revert this
      decide), hM3]
    rfl
  refine ⟨⟨by rw [countPrefix, hX4]; rfl, by rw [countPrefix, hY4]; rfl,
    by rw [countPrefix, hM4]; rfl⟩, ?_⟩
  intro i hi
  obtain ⟨hlx, hly, hlm⟩ := stepSlot_lookup hs0
  obtain ⟨hlx1, hly1, hlm1⟩ := stepSlot_lookup hs1
  obtain ⟨hlx2, hly2, hlm2⟩ := stepSlot_lookup hs2
  obtain ⟨hlx3, hly3, hlm3⟩ := stepSlot_lookup hs3
  interval_cases i
  · have hfr : ∀ k, k ≠ kxK 1 → k ≠ kyK 1 → k ≠ kmK 1 → k ≠ kpK 1 → k ≠ ktK 1 →
        k ≠ kxK 2 → k ≠ kyK 2 → k ≠ kmK 2 → k ≠ kpK 2 → k ≠ ktK 2 →
        k ≠ kxK 3 → k ≠ kyK 3 → k ≠ kmK 3 → k ≠ kpK 3 → k ≠ ktK 3 →
        mdLookup md k = mdLookup m1 k := by
      intro k a1 a2 a3 a4 a5 b1 b2 b3 b4 b5 c1 c2 c3 c4 c5
      rw [stepSlot_frame hs3 k c1 c2 c3 c4 c5, stepSlot_frame hs2 k b1 b2 b3 b4 b5,
        stepSlot_frame hs1 k a1 a2 a3 a4 a5]
    refine ⟨?_, ?_, ?_⟩
    · obtain ⟨v, hv, hc⟩ := hlx
      refine ⟨v, ?_, hc⟩
      rw [← kxK_eq 0, hfr (kxK 0) (by decide) (by decide) (by decide) (by decide) (by decide) (by decide) (by decide) (by decide) (by decide) (by decide) (by decide) (by decide) (by decide) (by decide) (by decide)]
      exact hv
    · obtain ⟨v, hv, hc⟩ := hly
      refine ⟨v, ?_, hc⟩
      rw [← kyK_eq 0, hfr (kyK 0) (by decide) (by decide) (by decide) (by decide) (by decide) (by decide) (by decide) (by decide) (by decide) (by decide) (by decide) (by decide) (by decide) (by decide) (by decide)]
      exact hv
    · obtain ⟨v, hv, hc⟩ := hlm
      refine ⟨v, ?_, hc⟩
      rw [← kmK_eq 0, hfr (kmK 0) (by decide) (by decide) (by decide) (by decide) (by decide) (by decide) (by decide) (by decide) (by decide) (by decide) (by decide) (by decide) (by decide) (by decide) (by decide)]
      exact hv
  · have hfr : ∀ k, k ≠ kxK 2 → k ≠ kyK 2 → k ≠ kmK 2 → k ≠ kpK 2 → k ≠ ktK 2 →
        k ≠ kxK 3 → k ≠ kyK 3 → k ≠ kmK 3 → k ≠ kpK 3 → k ≠ ktK 3 →
        mdLookup md k = mdLookup m2 k := by
      intro k b1 b2 b3 b4 b5 c1 c2 c3 c4 c5
      rw [stepSlot_frame hs3 k c1 c2 c3 c4 c5, stepSlot_frame hs2 k b1 b2 b3 b4 b5]
    refine ⟨?_, ?_, ?_⟩
    · obtain ⟨v, hv, hc⟩ := hlx1
      refine ⟨v, ?_, hc⟩
      rw [← kxK_eq 1, hfr (kxK 1) (by decide) (by decide) (by decide) (by decide) (by decide) (by decide) (by decide) (by decide) (by decide) (by decide)]
      exact hv
    · obtain ⟨v, hv, hc⟩ := hly1
      refine ⟨v, ?_, hc⟩
      rw [← kyK_eq 1, hfr (kyK 1) (by decide) (by decide) (by decide) (by decide) (by decide) (by decide) (by decide) (by decide) (by decide) (by decide)]
      exact hv
    · obtain ⟨v, hv, hc⟩ := hlm1
      refine ⟨v, ?_, hc⟩
      rw [← kmK_eq 1, hfr (kmK 1) (by decide) (by decide) (by decide) (by decide) (by decide) (by decide) (by decide) (by decide) (by decide) (by decide)]
      exact hv
  · have hfr : ∀ k, k ≠ kxK 3 → k ≠ kyK 3 → k ≠ kmK 3 → k ≠ kpK 3 → k ≠ ktK 3 →
        mdLookup md k = mdLookup m3 k := by
      intro k c1 c2 c3 c4 c5
      rw [stepSlot_frame hs3 k c1 c2 c3 c4 c5]
    refine ⟨?_, ?_, ?_⟩
    · obtain ⟨v, hv, hc⟩ := hlx2
      refine ⟨v, ?_, hc⟩
      rw [← kxK_eq 2, hfr (kxK 2) (by decide) (by decide) (by decide) (by decide) (by decide)]
      exact hv
    · obtain ⟨v, hv, hc⟩ := hly2
      refine ⟨v, ?_, hc⟩
      rw [← kyK_eq 2, hfr (kyK 2) (by decide) (by decide) (by decide) (by decide) (by decide)]
      exact hv
    · obtain ⟨v, hv, hc⟩ := hlm2
      refine ⟨v, ?_, hc⟩
      rw [← kmK_eq 2, hfr (kmK 2) (by decide) (by decide) (by decide) (by decide) (by decide)]
      exact hv
  · refine ⟨?_, ?_, ?_⟩
    · obtain ⟨v, hv, hc⟩ := hlx3
      refine ⟨v, ?_, hc⟩
      rw [← kxK_eq 3]
      exact hv
    · obtain ⟨v, hv, hc⟩ := hly3
      refine ⟨v, ?_, hc⟩
      rw [← kyK_eq 3]
      exact hv
    · obtain ⟨v, hv, hc⟩ := hlm3
      refine ⟨v, ?_, hc⟩
      rw [← kmK_eq 3]
      exact hv

/-- Witness for C6: evaluation of `_calculate_ps_metadata` on a concrete
double, with exactly four slots per family. -/
theorem claim_C6_witness :
    countPrefix psMd0 preX = 4 ∧ countPrefix psMd0 preY = 4 ∧
    countPrefix psMd0 preM = 4 :=
  (claim_C6 cfg0 inp0 [] psMd0 0 (by decide) (by decide) (by decide) (by rfl)).1

/-- C5: after every `_draw_image_drizzle` call that ends in success or in
the typed criteria rejection, the sample's detector pixel scale and the
numerics kwargs are bit-identical to their pre-call values. -/
theorem claim_C5 (g : Globals) (st : DState)
    (stdCall : DState → Globals → StdResult × Globals)
    (hubblifyFn : Image → Image) (mdUpdate : Md → Md)
    (res : Except PErr (Image × Md)) (st' : DState) (g' : Globals)
    (heq : draw_image_drizzle g st stdCall hubblifyFn mdUpdate = (res, st', g'))
    (hres : (∃ p, res = Except.ok p) ∨ res = Except.error PErr.failedCriteria) :
    st'.sample.detector_pixel_scale = st.sample.detector_pixel_scale ∧
    st'.kwargs_numerics = st.kwargs_numerics := by
  unfold draw_image_drizzle at heq
  simp only at heq
  split at heq
  · injection heq with h1 h23
    injection h23 with h2 h3
    subst h1; subst h2
    exact ⟨rfl, rfl⟩
  · injection heq with h1 h23
    injection h23 with h2 h3
    subst h1
    rcases hres with ⟨p, hp⟩ | hp
    · exact Except.noConfusion hp
    · exact PErr.noConfusion (Except.error.inj hp)
  · split at heq
    · injection heq with h1 h23
      injection h23 with h2 h3
      subst h1
      rcases hres with ⟨p, hp⟩ | hp
      · exact Except.noConfusion hp
      · exact PErr.noConfusion (Except.error.inj hp)
    · split at heq
      · injection heq with h1 h23
        injection h23 with h2 h3
        subst h1
        rcases hres with ⟨p, hp⟩ | hp
        · exact Except.noConfusion hp
        · exact PErr.noConfusion (Except.error.inj hp)
      · injection heq with h1 h23
        injection h23 with h2 h3
        subst h1; subst h2
        exact ⟨rfl, rfl⟩

/-- C2, amended: when the exception leaving `_draw_image_drizzle` is the
typed `FailedCriteriaError`, the sample, the numerics kwargs and the
pixel count are all restored to their pre-call values before it
propagates; for any other exception the overrides are not restored (see
the counterexample). -/
theorem claim_C2 (g : Globals) (st : DState)
    (stdCall : DState → Globals → StdResult × Globals)
    (hubblifyFn : Image → Image) (mdUpdate : Md → Md)
    (res : Except PErr (Image × Md)) (st' : DState) (g' : Globals)
    (heq : draw_image_drizzle g st stdCall hubblifyFn mdUpdate = (res, st', g'))
    (hres : res = Except.error PErr.failedCriteria) : st' = st := by
  subst hres
  unfold draw_image_drizzle at heq
  simp only at heq
  split at heq
  · injection heq with h1 h23
    injection h23 with h2 h3
    subst h2
    rfl
  · injection heq with h1 h23
    exact absurd (Except.error.inj h1).symm (by decide)
  · split at heq
    · injection heq with h1 h23
      exact absurd (Except.error.inj h1).symm (by decide)
    · split at heq
      · injection heq with h1 h23
        exact absurd (Except.error.inj h1).symm (by decide)
      · injection heq with h1 h23
        exact Except.noConfusion h1

/-- Witness for C5: a rejected drizzle render on `stW` leaves the pixel
scale and the numerics kwargs untouched. -/
theorem claim_C5_witness :
    (draw_image_drizzle initGlobals stW stdFc id id).2.1.sample.detector_pixel_scale =
      stW.sample.detector_pixel_scale ∧
    (draw_image_drizzle initGlobals stW stdFc id id).2.1.kwargs_numerics =
      stW.kwargs_numerics :=
  claim_C5 initGlobals stW stdFc id id
    (draw_image_drizzle initGlobals stW stdFc id id).1
    (draw_image_drizzle initGlobals stW stdFc id id).2.1
    (draw_image_drizzle initGlobals stW stdFc id id).2.2
    rfl (Or.inr (by rfl))

/-- Witness for C2 (amended): the rejected render restores the whole
mutated state. -/
theorem claim_C2_witness :
    (draw_image_drizzle initGlobals stW stdFc id id).2.1 = stW :=
  claim_C2 initGlobals stW stdFc id id
    (draw_image_drizzle initGlobals stW stdFc id id).1
    (draw_image_drizzle initGlobals stW stdFc id id).2.1
    (draw_image_drizzle initGlobals stW stdFc id id).2.2
    rfl (by rfl)

/-- Counterexample to C2 as stated: an exception other than the typed
rejection raised while the overrides are active (here an error inside the
inner standard render) propagates with the detector pixel scale still
overridden to the supersample scale. -/
theorem claim_C2_counterexample :
    (draw_image_drizzle initGlobals stW stdOther id id).1 = Except.error PErr.other ∧
    (draw_image_drizzle initGlobals stW stdOther id id).2.1.sample.detector_pixel_scale ≠
      stW.sample.detector_pixel_scale := by
  refine ⟨rfl, ?_⟩
  intro hc
  have h1 : (draw_image_drizzle initGlobals stW stdOther id id).2.1.sample.detector_pixel_scale
      = 1 := rfl
  have h2 : stW.sample.detector_pixel_scale = 2 := rfl
  rw [h1, h2] at hc
  norm_num at hc

/-- C8: contrary to the claim, the first in-process scaling of the
numerics supersampling factors emits no warning at all — the module
flags `KWARGSNUMERICWARNING1/2` are initialized to `False` (source lines
29-30), so the warn branch guarded by them is dead code even though both
factors are scaled down (here from 4 to 2 at supersampling ratio 2). -/
theorem claim_C8 :
    (modifyKwargsForDrizzle ⟨some 4, some 4, none⟩ initGlobals 2).2 = initGlobals ∧
    (modifyKwargsForDrizzle ⟨some 4, some 4, none⟩ initGlobals 2).1.supersampling_factor
      = some 2 ∧
    (modifyKwargsForDrizzle ⟨some 4, some 4,
      none⟩ initGlobals 2).1.point_source_supersampling_factor = some 2 := by
  have harith : max 1 (pytrunc (((4 : Int) : Rat) / 2)) = 2 := by
    norm_num [pytrunc]
    rw [Rat.floor_def']
    norm_num
  refine ⟨rfl, ?_, ?_⟩ <;>
    simp only [modifyKwargsForDrizzle, initGlobals, Bool.false_eq_true, if_false,
      harith]

theorem draw_image_seeded_new_indep (F : DrawFns) (st : SeedState)
    (s1 s2 : Sample) :
    draw_image_seeded F st s1 true = draw_image_seeded F st s2 true := rfl

theorem drawRun_indep (F : DrawFns) (base : List Nat) (s1 s2 : Sample) :
    ∀ n, drawRun F base s1 (n + 1) = drawRun F base s2 (n + 1) := by
  intro n
  induction n with
  | zero =>
    show (draw_image_seeded F (mkSeedState base) s1 true).2 =
      (draw_image_seeded F (mkSeedState base) s2 true).2
    rw [draw_image_seeded_new_indep F (mkSeedState base) s1 s2]
  | succ n ih =>
    show (draw_image_seeded F (drawRun F base s1 (n + 1)).1
        (drawRun F base s1 (n + 1)).2 true).2 =
      (draw_image_seeded F (drawRun F base s2 (n + 1)).1
        (drawRun F base s2 (n + 1)).2 true).2
    rw [ih]

theorem drawRun_counter (F : DrawFns) (base : List Nat) (s : Sample) :
    ∀ n, (drawRun F base s n).1.reseed_counter = n ∧
      (drawRun F base s n).1.base_seed = base := by
  intro n
  induction n with
  | zero => exact ⟨rfl, rfl⟩
  | succ n ih =>
    constructor
    · show (drawRun F base s n).1.reseed_counter + 1 = n + 1
      rw [ih.1]
    · show (drawRun F base s n).1.base_seed = base
      exact ih.2

/-- C4, amended: with every call drawing a new sample (the default), two
handler instances built from the same base seed produce bit-identical
seed tuples and outputs on the Nth call, whatever initialization samples
their constructors drew; the Nth call reseeds with the base seed for
N = 1 and with the base seed extended by N-1 afterwards; and a single
`reseed` seeds numpy with exactly that tuple and numba with an integer
drawn from the freshly seeded numpy stream, so the two streams are
reseeded together on every call. -/
theorem claim_C4 (F : DrawFns) (base : List Nat) (s1 s2 : Sample) (n : Nat) :
    nthDraw F base s1 n = nthDraw F base s2 n ∧
    (nthDraw F base s1 n).1 = (if n = 0 then base else base ++ [n]) ∧
    (∀ st : SeedState,
      (reseed F.randint st).2.np_seed = (reseed F.randint st).1 ∧
      (reseed F.randint st).2.np_draws = 1 ∧
      (reseed F.randint st).2.numba_seed = F.randint (reseed F.randint st).1 ∧
      (reseed F.randint st).2.reseed_counter = st.reseed_counter + 1 ∧
      (reseed F.randint st).1 = (if st.reseed_counter = 0 then st.base_seed
        else st.base_seed ++ [st.reseed_counter])) := by
  refine ⟨?_, ?_, fun st => ⟨rfl, rfl, rfl, rfl, rfl⟩⟩
  · cases n with
    | zero =>
      show (draw_image_seeded F (mkSeedState base) s1 true).1 =
        (draw_image_seeded F (mkSeedState base) s2 true).1
      rw [draw_image_seeded_new_indep F (mkSeedState base) s1 s2]
    | succ n =>
      show (draw_image_seeded F (drawRun F base s1 (n + 1)).1
          (drawRun F base s1 (n + 1)).2 true).1 = _
      rw [drawRun_indep F base s1 s2 n]
      rfl
  · have hc := drawRun_counter F base s1 n
    show ((if (drawRun F base s1 n).1.reseed_counter = 0 then
        (drawRun F base s1 n).1.base_seed
      else (drawRun F base s1 n).1.base_seed ++
        [(drawRun F base s1 n).1.reseed_counter]) : List Nat) = _
    rw [hc.1, hc.2]

/-- Counterexample to C4 as stated: the claim quantifies over every call
to `draw_image`, but with `new_sample=False` on the first call the two
instances render the initialization samples their constructors drew from
the ambient (never reseeded) stream, which identical configurations and
base seeds do not constrain; with different initialization samples the
outputs differ bit-wise. -/
theorem claim_C4_counterexample :
    (draw_image_seeded
        ⟨fun _ => 0, fun _ => ([], 0),
          fun s np nb => ((none, if s.isEmpty then none else some []), np.2, nb, s)⟩
        (mkSeedState [7]) [] false).1 ≠
      (draw_image_seeded
        ⟨fun _ => 0, fun _ => ([], 0),
          fun s np nb => ((none, if s.isEmpty then none else some []), np.2, nb, s)⟩
        (mkSeedState [7]) [("a", [])] false).1 := by
  intro hc
  have h1 : (draw_image_seeded
      ⟨fun _ => 0, fun _ => ([], 0),
        fun s np nb => ((none, if s.isEmpty then none else some []), np.2, nb, s)⟩
      (mkSeedState [7]) ([] : Sample) false).1.2.2 = none := rfl
  have h2 : (draw_image_seeded
      ⟨fun _ => 0, fun _ => ([], 0),
        fun s np nb => ((none, if s.isEmpty then none else some []), np.2, nb, s)⟩
      (mkSeedState [7]) [("a", [])] false).1.2.2 = some [] := rfl
  rw [hc, h2] at h1
  exact Option.noConfusion h1

theorem draw_image_core_ok_shape (r : Except PErr (Option Image × Option Md))
    (mask_radius : Option Rat) (maskFn : Image → Image) (seed : List Nat)
    (p : Option Image × Option Md)
    (h : draw_image_core r mask_radius maskFn seed = Except.ok p) :
    (p.1 = none ∧ p.2 = none) ∨ (p.1.isSome = true ∧ p.2.isSome = true) := by
  unfold draw_image_core at h
  rcases r with e | ⟨i?, m?⟩
  · cases e <;> simp only at h
    · exact Or.inl (by rw [← Except.ok.inj h]; exact ⟨rfl, rfl⟩)
    all_goals exact Except.noConfusion h
  · rcases i? with _ | i <;> rcases m? with _ | m <;> simp only at h
    · exact Except.noConfusion h
    · exact Except.noConfusion h
    · exact Except.noConfusion h
    · exact Or.inr (by rw [← Except.ok.inj h]; exact ⟨rfl, rfl⟩)

/-- C1: for every call to `draw_image` — on the standard and on the
drizzle path — a `FailedCriteriaError` raised by the rendering path
yields the sentinel pair `(None, None)`, any other exception propagates
as a fatal error, and in every normal return the metadata is the
sentinel if and only if the image is. -/
theorem claim_C1 :
    (∀ (r : Except PErr (Option Image × Option Md)) (mask : Option Rat)
      (maskFn : Image → Image) (seed : List Nat),
      r = Except.error PErr.failedCriteria →
      draw_image_core r mask maskFn seed = Except.ok (none, none)) ∧
    (∀ (r : Except PErr (Option Image × Option Md)) (mask : Option Rat)
      (maskFn : Image → Image) (seed : List Nat) (e : PErr),
      r = Except.error e → e ≠ PErr.failedCriteria →
      draw_image_core r mask maskFn seed = Except.error e) ∧
    (∀ (cfg : HandlerConfig) (orc : StdOracles) (F : DrawFns) (sst : SeedState)
      (cur : Sample) (g : Globals) (maskFn : Image → Image) (ns : Bool),
      (draw_image_std cfg orc F sst cur g maskFn ns).1 =
        draw_image_core
          (draw_image_standard cfg orc
            (if ns then (F.sampleFn ((reseed F.randint sst).2.np_seed,
              (reseed F.randint sst).2.np_draws)).1 else cur)
            g.serializationWarning g.emitted cfg.add_noise true).1
          cfg.mask_radius maskFn (reseed F.randint sst).1) ∧
    (∀ (g : Globals) (st : DState)
      (stdCall : DState → Globals → StdResult × Globals)
      (hubblifyFn : Image → Image) (mdUpdate : Md → Md)
      (randint : List Nat → Nat) (sst : SeedState) (mask : Option Rat)
      (maskFn : Image → Image) (nsd : Option DSample),
      (draw_image_driz g st stdCall hubblifyFn mdUpdate randint sst mask maskFn
        nsd).1 =
        draw_image_core
          (Except.map (fun p => (some p.1, some p.2))
            (draw_image_drizzle g (match nsd with
              | some s => { st with sample := s }
              | none => st) stdCall hubblifyFn mdUpdate).1)
          mask maskFn (reseed randint sst).1) ∧
    (∀ (cfg : HandlerConfig) (orc : StdOracles) (F : DrawFns) (sst : SeedState)
      (cur : Sample) (g : Globals) (maskFn : Image → Image) (ns : Bool)
      (p : Option Image × Option Md),
      (draw_image_std cfg orc F sst cur g maskFn ns).1 = Except.ok p →
      (p.1 = none ↔ p.2 = none)) ∧
    (∀ (g : Globals) (st : DState)
      (stdCall : DState → Globals → StdResult × Globals)
      (hubblifyFn : Image → Image) (mdUpdate : Md → Md)
      (randint : List Nat → Nat) (sst : SeedState) (mask : Option Rat)
      (maskFn : Image → Image) (nsd : Option DSample)
      (p : Option Image × Option Md),
      (draw_image_driz g st stdCall hubblifyFn mdUpdate randint sst mask maskFn
        nsd).1 = Except.ok p →
      (p.1 = none ↔ p.2 = none)) := by
  have hshape : ∀ (r : Except PErr (Option Image × Option Md)) mask
      (maskFn : Image → Image) seed p,
      draw_image_core r mask maskFn seed = Except.ok p → (p.1 = none ↔ p.2 = none) := by
    intro r mask maskFn seed p h
    rcases draw_image_core_ok_shape r mask maskFn seed p h with ⟨h1, h2⟩ | ⟨h1, h2⟩
    · simp [h1, h2]
    · constructor
      · intro hn; rw [hn] at h1; exact Bool.noConfusion h1
      · intro hn; rw [hn] at h2; exact Bool.noConfusion h2
  refine ⟨?_, ?_, fun _ _ _ _ _ _ _ _ => rfl, fun _ _ _ _ _ _ _ _ _ _ => rfl,
    ?_, ?_⟩
  · intro r mask maskFn seed hr
    subst hr
    rfl
  · intro r mask maskFn seed e hr he
    subst hr
    cases e <;> first
      | exact absurd rfl he
      | rfl
  · intro cfg orc F sst cur g maskFn ns p h
    exact hshape _ _ _ _ _ h
  · intro g st stdCall hubblifyFn mdUpdate randint sst mask maskFn nsd p h
    exact hshape _ _ _ _ _ h

/-- Witness for C1: the typed rejection becomes the sentinel pair, and a
fatal error propagates, at concrete inputs. -/
theorem claim_C1_witness :
    draw_image_core (Except.error PErr.failedCriteria) none id [7] =
      Except.ok (none, none) ∧
    draw_image_core (Except.error PErr.valueError) none id [7] =
      Except.error PErr.valueError := by
  constructor
  · exact claim_C1.1 (Except.error PErr.failedCriteria) none id [7] rfl
  · exact claim_C1.2.1 (Except.error PErr.valueError) none id [7] PErr.valueError
      rfl (by decide)

/-- Witness for C10: on a concrete 2-image input the standard path
returns an actual image and metadata, never the sentinel pair. -/
theorem claim_C10_witness :
    (draw_image_standard cfg0 stdOrc0 [] true [] false true).1 = Except.ok p10 ∧
    p10.1.isSome = true ∧ p10.2.isSome = true := by
  have h : (draw_image_standard cfg0 stdOrc0 [] true [] false true).1 =
      Except.ok p10 := by rfl
  exact ⟨h, (claim_C10 cfg0).2.2.2 stdOrc0 [] true [] false true p10 h⟩

end Paltas
